import Mathlib

/-!
Verification development for the `hortela` plain-text accounting tool.

The definitions below are a shallow embedding of the Rust sources under
`src/`: the lexing rule for numbers (`src/syntax/lexer.rs`), the token-level
parser (`src/parser.rs`), the ledger data model (`src/ledger.rs`,
`src/account.rs`, `src/money.rs`), the ledger builder (`src/lib.rs`) and the
three validators (`src/validate/mod.rs`) together with the older balance
reconciliation routine `Transactions::validate_balances` (`src/ledger.rs`).

Machine floating point: several code paths move amounts through Rust `f64`
(casts of numerator/denominator columns, `BigRational::to_f64`,
`BigRational::from_float`, polars `Float64` sums).  We model a finite `f64`
value as the exact rational it denotes, and every rounding step by
`f64round`, round-to-nearest (ties to even) at 53 significant bits with
unbounded exponent.  This coincides with IEEE-754 binary64 for every value
whose magnitude stays inside the normal range (roughly `2^-1022` to
`2^1024`), which covers all quantities handled in this development; infinity,
NaN and subnormal behaviour are outside the modelled range.
-/

namespace Hortela

/-- Round a rational to the nearest integer, ties to even (the IEEE-754
default rounding used by Rust `f64` arithmetic and by `{:.N}` formatting). -/
def roundHalfEven (q : ℚ) : ℤ :=
  let f : ℤ := ⌊q⌋
  let r : ℚ := q - f
  if r < 1/2 then f
  else if 1/2 < r then f + 1
  else if f % 2 = 0 then f else f + 1

/-- The binary64 value nearest to a rational: round the 53-bit significand to
nearest, ties to even.  Exponent range is not clamped (see the module
comment). -/
def f64round (q : ℚ) : ℚ :=
  if q = 0 then 0
  else
    let s : ℚ := if q < 0 then -1 else 1
    let a : ℚ := |q|
    let e : ℤ := Int.log 2 a
    let m : ℤ :=
      if e ≤ 52 then roundHalfEven (a * ((2 ^ (52 - e).toNat : ℕ) : ℚ))
      else roundHalfEven (a / ((2 ^ (e - 52).toNat : ℕ) : ℚ))
    if e ≤ 52 then s * m / ((2 ^ (52 - e).toNat : ℕ) : ℚ)
    else s * m * ((2 ^ (e - 52).toNat : ℕ) : ℚ)

/-- `f64` addition: exact rational addition followed by rounding. -/
def fadd (a b : ℚ) : ℚ := f64round (a + b)

/-- `f64` division: exact rational division followed by rounding (IEEE
division is correctly rounded). -/
def fdiv (a b : ℚ) : ℚ := f64round (a / b)

/-- Sum of an `f64` column as polars computes it: a left fold of `f64`
additions starting from `0.0`.  The empty column sums to `0` (the source
wraps the polars result in `unwrap_or(0…)`). -/
def fsum (l : List ℚ) : ℚ := l.foldl fadd 0

/-! ## Data model (`src/money.rs`, `src/account.rs`, `src/syntax.rs`) -/

/-- `MovementKind` from `src/money.rs`. -/
inductive MovementKind where
  | credit
  | debit
deriving DecidableEq

/-- `Sign` as referenced by `src/money.rs` (`crate::syntax::Sign`); its
definition is not among the files under `src/`.  Modelled from the spec: the
number grammar allows a leading `-` only on balance amounts, so a sign is
either positive or negative, with `flip` exchanging the two (see
`Sign::flip` used in `src/lexer.rs`). -/
inductive Sign where
  | positive
  | negative
deriving DecidableEq

/-- `Sign::flip`, as used by the lexer for `-`-prefixed numbers. -/
def Sign.flip : Sign → Sign
  | .positive => .negative
  | .negative => .positive

/-- `AccountType` from `src/account.rs`. -/
inductive AccountType where
  | void
  | assets
  | liabilities
  | income
  | equity
  | expenses
deriving DecidableEq

/-- `Account` from `src/account.rs`: an account kind together with a single
name string (this generation of the code keeps the colon-joined segment list
in one `String`). -/
inductive Account where
  | void
  | assets (name : String)
  | liabilities (name : String)
  | income (name : String)
  | equity (name : String)
  | expenses (name : String)
deriving DecidableEq

/-- The `Display` rendering of an `Account` (`src/account.rs`), used as the
`account_name` dataframe column and as the join key of the validators. -/
def Account.render : Account → String
  | .void => "void"
  | .assets name => "assets:" ++ name
  | .liabilities name => "liabilities:" ++ name
  | .income name => "income:" ++ name
  | .equity name => "equity:" ++ name
  | .expenses name => "expenses:" ++ name

/-- `Account::signed_factor` from `src/account.rs` lines 56-75: the fixed
sign table indexed by movement kind (outer match) and account kind (inner
match). -/
def Account.signed_factor (a : Account) (movement_kind : MovementKind) : ℤ :=
  match movement_kind with
  | .debit =>
    match a with
    | .void => -1
    | .assets _ => 1
    | .liabilities _ => -1
    | .income _ => -1
    | .equity _ => -1
    | .expenses _ => 1
  | .credit =>
    match a with
    | .void => 1
    | .assets _ => -1
    | .liabilities _ => 1
    | .income _ => 1
    | .equity _ => 1
    | .expenses _ => -1

/-- `Money` as used by `src/syntax.rs` and `src/ledger.rs`: an exact
`BigRational` amount (always kept reduced, like `Rat`) plus a currency tag. -/
structure MoneyQ where
  amount : ℚ
  currency : String
deriving DecidableEq

/-- `Keyword` from `src/syntax.rs`. -/
inductive Keyword where
  | openKw
  | balanceKw
  | transactionKw
deriving DecidableEq

/-- `Keyword::from_str` from `src/syntax.rs`. -/
def Keyword.from_str (v : String) : Option Keyword :=
  if v = "open" then some .openKw
  else if v = "balance" then some .balanceKw
  else if v = "transaction" then some .transactionKw
  else none

/-- `Token` from `src/syntax.rs` (the `BigRational`-carrying generation that
`src/parser.rs` pattern-matches on).  `Token::String` is rendered as
`Tok.str`. -/
inductive Tok where
  | comment (text : String)
  | identifier (id : String)
  | movement (kind : MovementKind)
  | str (s : String)
  | currency (cur : String)
  | number (n : ℚ)
  | separator (c : Char)
deriving DecidableEq

/-- `Token::get_number` from `src/syntax.rs`. -/
def Tok.get_number : Tok → Option ℚ
  | .number n => some n
  | _ => none

/-! ## Calendar dates (`chrono::NaiveDate`)

`chrono` is an external crate; its constructor `NaiveDate::from_ymd_opt`
implements the proleptic Gregorian calendar over years `-262144..=262143`
(the chrono 0.4 representable range).  The parser claims depend on it, so it
is modelled here directly. -/

/-- Gregorian leap-year rule. -/
def isLeapYear (y : ℤ) : Bool :=
  (y % 4 = 0 && y % 100 != 0) || y % 400 = 0

/-- Number of days of month `m` of year `y` (for `1 ≤ m ≤ 12`). -/
def daysInMonth (y m : ℤ) : ℤ :=
  if m = 2 then (if isLeapYear y then 29 else 28)
  else if m = 4 ∨ m = 6 ∨ m = 9 ∨ m = 11 then 30
  else 31

/-- A calendar date as year/month/day.  Values are only ever built through
`fromYmdOpt`. -/
structure NDate where
  year : ℤ
  month : ℤ
  day : ℤ
deriving DecidableEq

/-- `NaiveDate::from_ymd_opt`: succeeds exactly on calendar-valid
year/month/day triples inside chrono's representable year range. -/
def fromYmdOpt (y m d : ℤ) : Option NDate :=
  if -262144 ≤ y ∧ y ≤ 262143 ∧ 1 ≤ m ∧ m ≤ 12 ∧ 1 ≤ d ∧ d ≤ daysInMonth y m then
    some ⟨y, m, d⟩
  else none

/-! ## Lexer (`src/syntax/lexer.rs`)

This is the lexer whose token type (`syntax::Token`, with `BigRational`
numbers) matches what `src/parser.rs` pattern-matches on.  (`src/lexer.rs`
contains an older fixed-point lexer whose token type does not match the
parser's; `parse_string` is modelled with the matching one.)  Positions are
character offsets; all tokens are ASCII so they agree with the source's byte
offsets. -/

/-- Numeric value of a run of ASCII digits. -/
def digitsVal (l : List Char) : ℕ :=
  l.foldl (fun a c => a * 10 + (c.toNat - 48)) 0

/-- The exact rational value of the decimal literal `intPart[.fracPart]`. -/
def literalVal (intPart fracPart : List Char) : ℚ :=
  (digitsVal intPart : ℚ) + (digitsVal fracPart : ℚ) / ((10 ^ fracPart.length : ℕ) : ℚ)

/-- The `number` rule of `src/syntax/lexer.rs` lines 9-19 on a character
list: one or more digits, optionally followed by `.` and one or more digits;
the matched text is parsed with Rust's `str::parse::<f64>` (correctly
rounded to the nearest binary64 value) and `Token::number` then converts
that `f64` with `BigRational::from_float`, which is exact on finite doubles.
Returns the token and the unconsumed input. -/
def numberRule (cs : List Char) : Option (Tok × List Char × ℕ) :=
  if (cs.takeWhile Char.isDigit).isEmpty then none
  else
    match cs.drop (cs.takeWhile Char.isDigit).length with
    | '.' :: rest2 =>
      if (rest2.takeWhile Char.isDigit).isEmpty then
        some (.number (f64round (literalVal (cs.takeWhile Char.isDigit) [])),
          cs.drop (cs.takeWhile Char.isDigit).length, (cs.takeWhile Char.isDigit).length)
      else
        some (.number (f64round (literalVal (cs.takeWhile Char.isDigit)
            (rest2.takeWhile Char.isDigit))),
          rest2.drop (rest2.takeWhile Char.isDigit).length,
          (cs.takeWhile Char.isDigit).length + 1 + (rest2.takeWhile Char.isDigit).length)
    | _ =>
      some (.number (f64round (literalVal (cs.takeWhile Char.isDigit) [])),
        cs.drop (cs.takeWhile Char.isDigit).length, (cs.takeWhile Char.isDigit).length)

/-- `number().parse(s)` on a complete input string: the rule must consume
the whole input. -/
def numberLex (s : String) : Option Tok :=
  match numberRule s.data with
  | some (t, [], _) => some t
  | _ => none

/-- Rust `char::is_ascii_lowercase` / identifier-continuation test of the
`identifier` rule. -/
def isIdentCont (c : Char) : Bool := c.isLower || c = '_'

/-- One token of `src/syntax/lexer.rs`, tried in the source's order:
`currency`, `movement`, `string`, `separator`, `number`, `identifier`.
Returns the token, the unconsumed input and the number of characters
consumed; `none` when no rule matches at this position. -/
def tokenRule (cs : List Char) : Option (Tok × List Char × ℕ) :=
  let upperRun := cs.takeWhile Char.isUpper
  if 3 ≤ upperRun.length then
    let taken := min upperRun.length 5
    some (.currency (String.mk (cs.take taken)), cs.drop taken, taken)
  else
    match cs with
    | '<' :: rest => some (.movement .debit, rest, 1)
    | '>' :: rest => some (.movement .credit, rest, 1)
    | '"' :: rest =>
      let body := rest.takeWhile (fun c => c ≠ '"')
      match rest.drop body.length with
      | '"' :: rest2 => some (.str (String.mk body), rest2, body.length + 2)
      | _ => none
    | ':' :: rest => some (.separator ':', rest, 1)
    | '-' :: rest => some (.separator '-', rest, 1)
    | c :: rest =>
      match numberRule cs with
      | some r => some r
      | none =>
        if c.isLower then
          let cont := rest.takeWhile isIdentCont
          some (.identifier (String.mk (c :: cont)), rest.drop cont.length, 1 + cont.length)
        else none
    | [] => none

/-- Skip insignificant input before a token: whitespace and `//` line
comments (a comment runs to a newline; the token-level `Comment` output is
discarded by the padding combinators).  Returns the remaining input and the
new position. -/
def skipTrivia : ℕ → List Char → ℕ → List Char × ℕ
  | 0, cs, pos => (cs, pos)
  | fuel + 1, cs, pos =>
    match cs with
    | c :: rest =>
      if c.isWhitespace then skipTrivia fuel rest (pos + 1)
      else if cs.take 2 = ['/', '/'] then
        let body := (cs.drop 2).takeWhile (fun c => c ≠ '\n')
        match (cs.drop 2).drop body.length with
        | '\n' :: rest2 => skipTrivia fuel rest2 (pos + 2 + body.length + 1)
        | _ => (cs, pos)
      else (cs, pos)
    | [] => ([], pos)

/-- The lexer loop of `src/syntax/lexer.rs` lines 57-81: skip trivia, match
one token (recording its span), and on failure recover by skipping one
character and recording an error span (`skip_then_retry_until([])`). -/
def lexGo : ℕ → List Char → ℕ → List (Tok × ℕ × ℕ) × List (ℕ × ℕ)
  | 0, _, _ => ([], [])
  | fuel + 1, cs, pos =>
    let (cs1, pos1) := skipTrivia (cs.length + 1) cs pos
    match cs1 with
    | [] => ([], [])
    | _ :: tail =>
      match tokenRule cs1 with
      | some (tok, rest, k) =>
        let (ts, es) := lexGo fuel rest (pos1 + k)
        ((tok, pos1, pos1 + k) :: ts, es)
      | none =>
        let (ts, es) := lexGo fuel tail (pos1 + 1)
        (ts, (pos1, pos1 + 1) :: es)

/-- `lexer().parse_recovery(input)`: the token sequence (with spans) and the
accumulated lexical error spans. -/
def lexString (s : String) : List (Tok × ℕ × ℕ) × List (ℕ × ℕ) :=
  lexGo (s.data.length + 1) s.data 0

/-! ## Parser (`src/parser.rs`)

The parser consumes spanned tokens.  A span is a half-open pair of offsets.
Parse results distinguish recoverable parse errors (chumsky `Simple` values;
only the span and, for `Simple::custom`, the message are modelled — the
expected/found token payloads are not) from Rust panics (`expect`/`unwrap`),
which abort the whole process and which no combinator recovers from. -/

/-- A parser-side span: `(start, end)` offsets, as in `std::ops::Range`. -/
abbrev PSpan := ℕ × ℕ

/-- A spanned token, the parser's input element. -/
abbrev SpTok := Tok × PSpan

/-- The `Account(AccountType, Vec<String>)` tuple that `src/parser.rs`
constructs (this parser generation keeps the segments as a list). -/
structure PAccount where
  kind : AccountType
  parts : List String
deriving DecidableEq

/-- `Movement` from `src/money.rs` as built by the parser: kind, money,
account. -/
structure PMovement where
  kind : MovementKind
  money : MoneyQ
  account : PAccount
deriving DecidableEq

/-- `Expr` from `src/syntax.rs`: the intermediate expression values the
token parsers produce. -/
inductive PExprE where
  | date (d : NDate)
  | account (a : PAccount)
  | currency (cur : String)
  | amount (n : ℚ) (cur : String)
  | keyword (k : Keyword)
  | description (s : String)
deriving DecidableEq

/-- A parse outcome: a chumsky `Simple` error (by default carrying only a
span; `Simple::custom` also carries a message) or a Rust panic. -/
inductive PErr where
  | expected (span : PSpan)
  | custom (span : PSpan) (msg : String)
  | crash (msg : String)
deriving DecidableEq

/-- Result of running a token parser: a value plus the unconsumed input, or
an error. -/
abbrev PResult (α : Type) := Except PErr (α × List SpTok)

/-- Span used for an error raised at end of input. -/
def eofSpan : PSpan := (0, 0)

/-- `sep(del)` from `src/parser.rs`: one separator token equal to `del`. -/
def sepP (del : Char) : List SpTok → PResult SpTok
  | (Tok.separator d, sp) :: rest =>
    if d = del then .ok ((Tok.separator d, sp), rest) else .error (.expected sp)
  | (_, sp) :: _ => .error (.expected sp)
  | [] => .error (.expected eofSpan)

/-- `movement_kind()` from `src/parser.rs`: any movement token. -/
def movementKindP : List SpTok → PResult (MovementKind × PSpan)
  | (Tok.movement k, sp) :: rest => .ok ((k, sp), rest)
  | (_, sp) :: _ => .error (.expected sp)
  | [] => .error (.expected eofSpan)

/-- `string()` from `src/parser.rs`: any string token, as a description. -/
def stringP : List SpTok → PResult (PExprE × PSpan)
  | (Tok.str s, sp) :: rest => .ok ((.description s, sp), rest)
  | (_, sp) :: _ => .error (.expected sp)
  | [] => .error (.expected eofSpan)

/-- `bounded_number(start, end)` from `src/parser.rs` lines 51-71.  The
source has three arms: in-bounds numbers are accepted, **and so are
out-of-bounds numbers** (the second `Some(n) => Ok((n, inner))` arm) — the
bounds are dead code; only non-number tokens are rejected. -/
def boundedNumberP (start stop : ℕ) : List SpTok → PResult (ℚ × PSpan)
  | (t, sp) :: rest =>
    match t.get_number with
    | some n =>
      if (start : ℚ) ≤ n ∧ n ≤ (stop : ℚ) then .ok ((n, sp), rest) else .ok ((n, sp), rest)
    | none => .error (.expected sp)
  | [] => .error (.expected eofSpan)

/-- `BigRational::to_i32`: truncating division of numerator by denominator,
then an `i32` range check. -/
def toI32 (q : ℚ) : Option ℤ :=
  let t := Int.tdiv q.num (q.den : ℤ)
  if -2147483648 ≤ t ∧ t ≤ 2147483647 then some t else none

/-- `BigRational::to_u32`: truncating division, then a `u32` range check. -/
def toU32 (q : ℚ) : Option ℤ :=
  let t := Int.tdiv q.num (q.den : ℤ)
  if 0 ≤ t ∧ t ≤ 4294967295 then some t else none

/-- `try_to_date` from `src/parser.rs` lines 73-88: convert the three
components and apply the calendar-aware constructor; every failure is a
`Simple` error at the date's span. -/
def tryToDate (span : PSpan) (y m d : ℚ) : Except PErr NDate :=
  match toI32 y with
  | none => .error (.expected span)
  | some yi =>
    match toU32 m with
    | none => .error (.expected span)
    | some mi =>
      match toU32 d with
      | none => .error (.expected span)
      | some di =>
        match fromYmdOpt yi mi di with
        | some nd => .ok nd
        | none => .error (.expected span)

/-- `date()` from `src/parser.rs` lines 90-105: `year '-' month '-' day`
through `bounded_number(1000,3000)`, `(1,12)`, `(1,31)`, then
`try_to_date`; the result span runs from the year's start to the day's
end. -/
def dateP (input : List SpTok) : PResult (PExprE × PSpan) :=
  match boundedNumberP 1000 3000 input with
  | .error e => .error e
  | .ok ((y, sy), r1) =>
    match sepP '-' r1 with
    | .error e => .error e
    | .ok (_, r2) =>
      match boundedNumberP 1 12 r2 with
      | .error e => .error e
      | .ok ((m, _), r3) =>
        match sepP '-' r3 with
        | .error e => .error e
        | .ok (_, r4) =>
          match boundedNumberP 1 31 r4 with
          | .error e => .error e
          | .ok ((d, sd), r5) =>
            let span : PSpan := (sy.1, sd.2)
            match tryToDate span y m d with
            | .error e => .error e
            | .ok nd => .ok ((.date nd, span), r5)

/-- `keyword(val)` from `src/parser.rs` lines 107-123: accepts any
identifier that names **some** keyword (the requested `val` is only used in
the error payload — `keyword("open")` also accepts `transaction`). -/
def keywordP (_val : String) : List SpTok → PResult (PExprE × PSpan)
  | (Tok.identifier id, sp) :: rest =>
    match Keyword.from_str id with
    | some k => .ok ((.keyword k, sp), rest)
    | none => .error (.expected sp)
  | (_, sp) :: _ => .error (.expected sp)
  | [] => .error (.expected eofSpan)

/-- The `kind` sub-parser of `account()`: one of the five account-type
identifiers. -/
def kindP : List SpTok → PResult (AccountType × PSpan)
  | (Tok.identifier id, sp) :: rest =>
    if id = "assets" then .ok ((.assets, sp), rest)
    else if id = "liabilities" then .ok ((.liabilities, sp), rest)
    else if id = "income" then .ok ((.income, sp), rest)
    else if id = "equity" then .ok ((.equity, sp), rest)
    else if id = "expenses" then .ok ((.expenses, sp), rest)
    else .error (.expected sp)
  | (_, sp) :: _ => .error (.expected sp)
  | [] => .error (.expected eofSpan)

/-- The `identifier.repeated().separated_by(separator).flatten()` run of
`account()`: it greedily consumes the maximal prefix of identifier and
separator tokens (identifier runs may be empty between separators, so any
mix is accepted) and collects the identifier tokens in order. -/
def idSepRun : List SpTok → List (String × PSpan) × List SpTok
  | (Tok.identifier id, sp) :: rest =>
    let (l, r) := idSepRun rest
    ((id, sp) :: l, r)
  | (Tok.separator _, _) :: rest => idSepRun rest
  | other => ([], other)

/-- `account()` from `src/parser.rs` lines 125-189: an account-type
identifier, then the identifier/separator run.  An empty run panics on the
`expect` that reads the last part's span; more than 3 collected segments is
a `Simple::custom` error with the message `"Accounts can contain at most 4
segments"` and a span from the kind's start to the last segment's end. -/
def accountP (input : List SpTok) : PResult (PExprE × PSpan) :=
  match kindP input with
  | .error e => .error e
  | .ok ((kind, sk), rest) =>
    let (parts, rest2) := idSepRun rest
    match parts.getLast? with
    | none => .error (.crash "Failed to get span for last part of account")
    | some (_, lastSp) =>
      let span : PSpan := (sk.1, lastSp.2)
      if parts.length > 3 then
        .error (.custom span "Accounts can contain at most 4 segments")
      else
        .ok ((.account ⟨kind, parts.map Prod.fst⟩, span), rest2)

/-- `currency()` from `src/parser.rs`: any currency token. -/
def currencyP : List SpTok → PResult (PExprE × PSpan)
  | (Tok.currency cur, sp) :: rest => .ok ((.currency cur, sp), rest)
  | (_, sp) :: _ => .error (.expected sp)
  | [] => .error (.expected eofSpan)

/-- `amount()` from `src/parser.rs` lines 191-207: a number token followed
by a currency token. -/
def amountP (input : List SpTok) : PResult (PExprE × PSpan) :=
  match input with
  | (Tok.number n, sn) :: rest =>
    match currencyP rest with
    | .error e => .error e
    | .ok ((.currency cur, sc), rest2) => .ok ((.amount n cur, (sn.1, sc.2)), rest2)
    | .ok ((_, sc), _) => .error (.expected (sn.1, sc.2))
  | (_, sp) :: _ => .error (.expected sp)
  | [] => .error (.expected eofSpan)

/-- `movement()` from `src/parser.rs` lines 216-231: movement kind, amount,
account; the `Expr` payloads are unwrapped into a `Movement` value
(`get_money` builds `Money::new(n, cur)`). -/
def movementP (input : List SpTok) : PResult (PMovement × PSpan) :=
  match movementKindP input with
  | .error e => .error e
  | .ok ((kind, sk), r1) =>
    match amountP r1 with
    | .error e => .error e
    | .ok ((.amount n cur, _), r2) =>
      match accountP r2 with
      | .error e => .error e
      | .ok ((.account acc, sa), r3) =>
        .ok ((⟨kind, ⟨n, cur⟩, acc⟩, (sk.1, sa.2)), r3)
      | .ok _ => .error (.crash "called Option::unwrap on a None value")
    | .ok _ => .error (.crash "called Option::unwrap on a None value")

/-- The greedy `movement().repeated()` loop: collect movements until the
movement parser fails; a parse failure ends the loop (backtracking to the
loop's last position) but a panic propagates. -/
def movementsLoop : ℕ → List SpTok → Except PErr (List (PMovement × PSpan) × List SpTok)
  | 0, input => .ok ([], input)
  | fuel + 1, input =>
    match movementP input with
    | .ok (m, rest) =>
      match movementsLoop fuel rest with
      | .ok (ms, r) => .ok (m :: ms, r)
      | .error e => .error e
    | .error (.crash msg) => .error (.crash msg)
    | .error _ => .ok ([], input)

/-- `movements()` from `src/parser.rs` lines 233-245: zero or more
movements, whose combined span is computed by `unwrap`ping the first and
last elements — parsing **zero** movements therefore panics. -/
def movementsP (input : List SpTok) : PResult (List (PMovement × PSpan) × PSpan) :=
  match movementsLoop (input.length + 1) input with
  | .error e => .error e
  | .ok (movs, rest) =>
    match movs.head?, movs.getLast? with
    | some (_, s1), some (_, s2) => .ok ((movs, (s1.1, s2.2)), rest)
    | _, _ => .error (.crash "called Option::unwrap on a None value")

/-- `Op` from `src/syntax.rs`, holding the payloads the parser actually
constructs. -/
inductive Op where
  | openOp (date : NDate × PSpan) (account : PAccount × PSpan) (currency : String × PSpan)
  | balance (date : NDate × PSpan) (account : PAccount × PSpan) (amount : MoneyQ × PSpan)
  | transaction (date : NDate × PSpan) (description : String × PSpan)
      (movements : (List (PMovement × PSpan)) × PSpan)
deriving DecidableEq

/-- `open_op()` from `src/parser.rs` lines 247-262. -/
def openOpP (input : List SpTok) : PResult (Op × PSpan) :=
  match dateP input with
  | .error e => .error e
  | .ok ((.date nd, sd), r1) =>
    match keywordP "open" r1 with
    | .error e => .error e
    | .ok (_, r2) =>
      match accountP r2 with
      | .error e => .error e
      | .ok ((.account acc, sa), r3) =>
        match currencyP r3 with
        | .error e => .error e
        | .ok ((.currency cur, sc), r4) =>
          .ok ((.openOp (nd, sd) (acc, sa) (cur, sc), (sd.1, sc.2)), r4)
        | .ok _ => .error (.crash "called Option::unwrap on a None value")
      | .ok _ => .error (.crash "called Option::unwrap on a None value")
  | .ok _ => .error (.crash "called Option::unwrap on a None value")

/-- `balance_op()` from `src/parser.rs` lines 264-279. -/
def balanceOpP (input : List SpTok) : PResult (Op × PSpan) :=
  match dateP input with
  | .error e => .error e
  | .ok ((.date nd, sd), r1) =>
    match keywordP "balance" r1 with
    | .error e => .error e
    | .ok (_, r2) =>
      match accountP r2 with
      | .error e => .error e
      | .ok ((.account acc, sa), r3) =>
        match amountP r3 with
        | .error e => .error e
        | .ok ((.amount n cur, sc), r4) =>
          .ok ((.balance (nd, sd) (acc, sa) (⟨n, cur⟩, sc), (sd.1, sc.2)), r4)
        | .ok _ => .error (.crash "called Option::unwrap on a None value")
      | .ok _ => .error (.crash "called Option::unwrap on a None value")
  | .ok _ => .error (.crash "called Option::unwrap on a None value")

/-- `transaction_op()` from `src/parser.rs` lines 281-296. -/
def transactionOpP (input : List SpTok) : PResult (Op × PSpan) :=
  match dateP input with
  | .error e => .error e
  | .ok ((.date nd, sd), r1) =>
    match keywordP "transaction" r1 with
    | .error e => .error e
    | .ok (_, r2) =>
      match stringP r2 with
      | .error e => .error e
      | .ok ((.description desc, sde), r3) =>
        match movementsP r3 with
        | .error e => .error e
        | .ok ((movs, sm), r4) =>
          .ok ((.transaction (nd, sd) (desc, sde) (movs, sm), (sd.1, sm.2)), r4)
      | .ok _ => .error (.crash "called Option::unwrap on a None value")
  | .ok _ => .error (.crash "called Option::unwrap on a None value")

/-- The `open_op().or(balance_op()).or(transaction_op())` alternative: each
branch is retried from the same position when the previous one fails with a
parse error; a panic is never recovered. -/
def opsP (input : List SpTok) : PResult (Op × PSpan) :=
  match openOpP input with
  | .ok r => .ok r
  | .error (.crash m) => .error (.crash m)
  | .error _ =>
    match balanceOpP input with
    | .ok r => .ok r
    | .error (.crash m) => .error (.crash m)
    | .error _ => transactionOpP input

/-- The `ops.repeated()` loop of `parser()` with
`recover_with(skip_then_retry_until([]))`: on a parse error, skip one token
(accumulating the error) and retry; panics abort.  Returns the operations
and the accumulated parse errors. -/
def parserLoop : ℕ → List SpTok → Except String (List (Op × PSpan) × List PErr)
  | 0, _ => .ok ([], [])
  | _ + 1, [] => .ok ([], [])
  | fuel + 1, input@(_ :: tail) =>
    match opsP input with
    | .ok (op, rest) =>
      match parserLoop fuel rest with
      | .ok (ops, errs) => .ok (op :: ops, errs)
      | .error m => .error m
    | .error (.crash m) => .error m
    | .error e =>
      match parserLoop fuel tail with
      | .ok (ops, errs) => .ok (ops, e :: errs)
      | .error m => .error m

/-- `parser().parse_recovery(tokens)`: with the skip-and-retry recovery the
parse always yields an output (so the `None => panic!` arm of
`parse_string` is unreachable); a Rust panic inside a parser propagates as
`.error`. -/
def parseTokens (toks : List SpTok) : Except String (List (Op × PSpan) × List PErr) :=
  parserLoop (toks.length + 1) toks

/-- `parse_string` from `src/parser.rs` lines 307-324: lex, then parse; the
recovered parse errors are discarded (only the operations are returned).
`.error` marks a Rust panic. -/
def parse_string (s : String) : Except String (List (Op × PSpan)) :=
  let (toks, _lexErrs) := lexString s
  match parseTokens (toks.map fun (t, a, b) => (t, (a, b))) with
  | .ok (ops, _parseErrs) => .ok ops
  | .error m => .error m

/-! ## Ledger model (`src/ledger.rs`)

The dataframe-backed ledger is modelled as plain lists of rows.  Dates are
arrow `date32` values (days since the UNIX epoch, as produced by
`date_to_arrow_datatype`); their integer order agrees with chronological
order.  Derived dataframe columns (`transaction.amount`,
`transaction.signed_amount`, …) are modelled as functions of a row. -/

/-- `Transaction` from `src/ledger.rs` lines 13-24. -/
structure LTransaction where
  id : ℕ
  date : ℤ
  description : String
  kind : MovementKind
  account : Account
  amount : MoneyQ
  spanStart : ℕ
  spanEnd : ℕ
  fromAmount : Option MoneyQ
  parentId : Option ℕ
deriving DecidableEq

/-- `Transaction::is_credit`. -/
def LTransaction.is_credit (t : LTransaction) : Bool := t.kind = .credit

/-- The `transaction.signed_amount` column (`src/ledger.rs` lines 390-400):
`amount.to_f64() * signed_factor as f64`.  The `BigRational::to_f64`
conversion rounds to the nearest double; the subsequent multiplication by
`±1.0` is exact. -/
def LTransaction.signedAmount (t : LTransaction) : ℚ :=
  f64round t.amount.amount * (t.account.signed_factor t.kind : ℚ)

/-- The `transaction.amount` column built by `Transactions::all`
(`src/ledger.rs` lines 75-107): the numerator column cast to `Float64`,
divided by the denominator column cast to `Float64`. -/
def LTransaction.amountF64 (t : LTransaction) : ℚ :=
  fdiv (f64round (t.amount.amount.num : ℚ)) (f64round (t.amount.amount.den : ℚ))

/-- `BalanceVerification` from `src/ledger.rs` lines 149-156. -/
structure LBalanceVerification where
  id : ℕ
  account : Account
  date : ℤ
  amount : MoneyQ
  spanStart : ℕ
  spanEnd : ℕ
deriving DecidableEq

/-- The `verification.amount` column of the verifications frame.  Modelled
from the spec: `BalanceVerifications::all` is not among the files under
`src/` (only the numerator/denominator columns it would read are built in
`src/ledger.rs`); mirroring `Transactions::all`, the column is the
numerator cast to `Float64` divided by the denominator cast to `Float64`. -/
def LBalanceVerification.amountF64 (v : LBalanceVerification) : ℚ :=
  fdiv (f64round (v.amount.amount.num : ℚ)) (f64round (v.amount.amount.den : ℚ))

/-- `Money::equals` as called by `Transactions::validate_balances`
(`src/ledger.rs` line 134).  Modelled from the spec: the method body is not
among the files under `src/` (the call site passes a rounding precision and
a `TODO` flags it as a hack, but the spec prescribes comparison "via exact
rational equality (no rounding)"), so it is modelled as exact equality of
the verification's rational amount with the compared `f64` sum. -/
def moneyEquals (m : MoneyQ) (sum : ℚ) : Bool := m.amount = sum

/-- Outcome of `Transactions::validate_balances`: success, or the explicit
`panic!("Balances do not match …")` on the first mismatching
verification. -/
inductive BalancesOutcome where
  | ok
  | panicMismatch (expected : MoneyQ) (got : ℚ)
deriving DecidableEq

/-- `Transactions::validate_balances` from `src/ledger.rs` lines 109-146:
for each verification in order, filter the transactions to those whose
rendered account name equals the verification's and whose date is `<=` the
verification's (`lt_eq` — same-day transactions included), sum the
`transaction.signed_amount` `f64` column (`unwrap_or(0.0)` on the empty
frame), and **panic** unless `Money::equals` accepts the sum. -/
def validate_balances (txs : List LTransaction) : List LBalanceVerification → BalancesOutcome
  | [] => .ok
  | v :: rest =>
    let df := txs.filter fun t =>
      decide (t.account.render = v.account.render) && decide (t.date ≤ v.date)
    let sum := fsum (df.map LTransaction.signedAmount)
    if moneyEquals v.amount sum then validate_balances txs rest
    else .panicMismatch v.amount sum

/-! ## Validators (`src/validate/mod.rs`) -/

/-- `Trace` from `src/validate/mod.rs` lines 22-29. -/
structure Trace where
  message : String
  details : String
  span : Option (ℕ × ℕ)
  found : Option String
  expected : Option String
deriving DecidableEq

/-- `ValidationError` from `src/validate/mod.rs` lines 10-20: a trace list,
a polars dataframe error, or any other (`anyhow`) error. -/
inductive VError where
  | withTrace (traces : List Trace)
  | dataframe (msg : String)
  | other (msg : String)
deriving DecidableEq

/-- Rust `format!("{:.2}", x)` on an `f64` value: the decimal rendering of
the value rounded to two fractional digits (ties to even). -/
def formatFixed2 (q : ℚ) : String :=
  let n : ℤ := roundHalfEven (q * 100)
  let sign := if n < 0 then "-" else ""
  let a := n.natAbs
  sign ++ toString (a / 100) ++ "." ++ (if a % 100 < 10 then "0" else "") ++ toString (a % 100)

/-- Rust `format!("{:.2}", n)` on an integer value: the precision is
ignored for integer `Display`, so this is the plain decimal rendering. -/
def intDisplay (n : ℤ) : String := toString n

/-- The `num_traits` cast from `f64` to `u64` used by
`Series::sum::<u64>()`: truncation toward zero, `None` outside the `u64`
range. -/
def f64ToU64 (q : ℚ) : Option ℕ :=
  if 0 ≤ q ∧ q < 18446744073709551616 then some ⌊q⌋.toNat else none

/-- A Rust `u64 as i64` cast (two's-complement reinterpretation). -/
def u64AsI64 (n : ℕ) : ℤ :=
  if n < 9223372036854775808 then (n : ℤ) else (n : ℤ) - 18446744073709551616

/-- `validate_credits_and_debits_balance` from `src/validate/mod.rs` lines
48-74: the `f64` sums of the unsigned `transaction.amount` column over the
credit rows and over the debit rows, each cast to `u64` (`unwrap_or(0)`),
must be equal; otherwise one trace with no span, the `i64` difference as
`found`, and `"0.0"` as `expected`. -/
def validate_credits_and_debits_balance (txs : List LTransaction) : Except VError Unit :=
  let credit_sum : ℕ :=
    (f64ToU64 (fsum ((txs.filter LTransaction.is_credit).map LTransaction.amountF64))).getD 0
  let debit_sum : ℕ :=
    (f64ToU64 (fsum ((txs.filter fun t => !t.is_credit).map LTransaction.amountF64))).getD 0
  if credit_sum = debit_sum then .ok ()
  else
    .error (.withTrace [{
      message := "Budget does not balance"
      details := "In a double-entry accounting system, all credits and debits should balance in the end."
      span := none
      found := some (intDisplay (u64AsI64 credit_sum - u64AsI64 debit_sum))
      expected := some "0.0" }])

/-- `credit_factor_series` from `src/validate/mod.rs` lines 76-88: `1.0`
for credit rows, `-1.0` for debit rows. -/
def creditFactor (t : LTransaction) : ℚ := if t.is_credit then 1 else -1

/-- The keys of a polars `groupby`, modelled in first-occurrence order (no
claim depends on polars' group ordering). -/
def firstOccur {α : Type} [DecidableEq α] (l : List α) : List α :=
  l.foldl (fun acc x => if x ∈ acc then acc else acc ++ [x]) []

/-- The rows of one `parent_id` group, in frame order. -/
def groupOf (txs : List LTransaction) (k : Option ℕ) : List LTransaction :=
  txs.filter fun t => t.parentId = k

/-- The `f64` sum of the sign-adjusted `transaction.amount` column over one
`parent_id` group (the column was replaced by `amount * credit_factor`;
multiplication by `±1.0` is exact). -/
def groupSignedSum (txs : List LTransaction) (k : Option ℕ) : ℚ :=
  fsum ((groupOf txs k).map fun t => t.amountF64 * creditFactor t)

/-- The per-group span recorded in a trace: `min span_start ..
(max span_end - 1)` (`src/validate/mod.rs` lines 135-139). -/
def groupSpan (txs : List LTransaction) (k : Option ℕ) : Option (ℕ × ℕ) :=
  match ((groupOf txs k).map (·.spanStart)).min?,
      ((groupOf txs k).map (·.spanEnd)).max? with
  | some a, some b => some (a, b - 1)
  | _, _ => none

/-- The `parent_id` group keys whose sign-adjusted `f64` sum is not `0.0`
(the rows of the filtered `unbalanced` frame). -/
def unbalancedKeys (txs : List LTransaction) : List (Option ℕ) :=
  (firstOccur (txs.map (·.parentId))).filter fun k => decide (groupSignedSum txs k ≠ 0)

/-- `validate_all_isolated_transactions_balance` from `src/validate/mod.rs`
lines 90-144: multiply the `f64` amount column by the credit factor, group
by `transaction.parent_id`, sum each group; every group whose sum is not
`0.0` yields one trace with the group's span, its formatted sum as `found`
and `"0.0"` as `expected`. -/
def validate_all_isolated_transactions_balance (txs : List LTransaction) : Except VError Unit :=
  if (unbalancedKeys txs).isEmpty then .ok ()
  else
    .error (.withTrace ((unbalancedKeys txs).map fun k => {
      message := "Transaction does not balance"
      details := "Inside a transaction, all debits and credits must balance in the end."
      span := groupSpan txs k
      found := some (formatFixed2 (groupSignedSum txs k))
      expected := some "0.0" }))

/-- `explode_date_series` from `src/utils.rs` lines 48-61: the inclusive
day range from the column's minimum to its maximum
(`chunked_date_range`); an empty column has no minimum and yields the
`anyhow` error `"not found min"`. -/
def explode_date_series (dates : List ℤ) : Except VError (List ℤ) :=
  match dates.min? with
  | none => .error (.other "not found min")
  | some mn =>
    match dates.max? with
    | none => .error (.other "not found max")
    | some mx => .ok ((List.range (mx - mn + 1).toNat).map fun i => mn + i)

/-- One row of the `per_day` aggregation of `validate_balance_statements`:
the group key `(date, account_name)` together with the aggregated
sign-adjusted amount.  The source aggregates the column with `cumsum` and
later reads it back as `transaction.amount_sum`; the value exposed per
group is modelled as the group's final cumulative value, i.e. the group's
`f64` sum. -/
structure PerDayRow where
  date : ℤ
  accountName : String
  amountSum : ℚ
deriving DecidableEq

/-- The `per_day` frame: one row per `(date, account_name)` group with the
group's `f64` sum of `amount * credit_factor` over that single day. -/
def perDayRows (txs : List LTransaction) : List PerDayRow :=
  (firstOccur (txs.map fun t => (t.date, t.account.render))).map fun key =>
    { date := key.1
      accountName := key.2
      amountSum := fsum ((txs.filter fun t =>
        decide (t.date = key.1) && decide (t.account.render = key.2)).map
          fun t => t.amountF64 * creditFactor t) }

/-- `validate_balance_statements` from `src/validate/mod.rs` lines 153-220:
build the per-day signed sums, explode the transaction date column into a
full day range (an **empty ledger errors here** with `"not found min"`),
cross-join it with the account-name column, left-join the per-day sums,
inner-join the verifications on `(date, account_name)`, and flag every
joined row whose per-day sum differs from the verification's `f64` amount
(a missing per-day sum compares as null and is never flagged).  Each
flagged row yields one trace; per the joined frame's column layout, the
columns read for `found` and the span are the verification's date and its
account name, so `found` renders the date and the span is `None`. -/
def validate_balance_statements (txs : List LTransaction)
    (verifs : List LBalanceVerification) : Except VError Unit :=
  let perDay := perDayRows txs
  match explode_date_series (txs.map (·.date)) with
  | .error e => .error e
  | .ok exploded =>
    let accounts := txs.map fun t => t.account.render
    let balancesPerDay := (exploded.flatMap fun d => accounts.map fun a => (d, a)).map
      fun p => (p.1, p.2, (perDay.filter fun r =>
        decide (r.date = p.1) && decide (r.accountName = p.2)).head?)
    let joined := verifs.flatMap fun v =>
      (balancesPerDay.filter fun row =>
        decide (v.date = row.1) && decide (v.account.render = row.2.1)).map
        fun row => (v, row.2.2)
    let unbalanced := joined.filter fun row =>
      match row.2 with
      | some r => decide (r.amountSum ≠ row.1.amountF64)
      | none => false
    if unbalanced.isEmpty then .ok ()
    else
      .error (.withTrace (unbalanced.map fun row => {
        message := "Transaction does not balance"
        details := "Inside a transaction, all debits and credits must balance in the end."
        span := none
        found := some (intDisplay row.1.date)
        expected := some "0.0" }))

/-! ## Ledger builder (`src/lib.rs`, `src/money.rs`) -/

/-- `Account::parts` from `src/account.rs` lines 43-54: the `(name, kind)`
pair of strings (note the source returns the name first). -/
def Account.parts : Account → String × String
  | .void => ("", "void")
  | .assets name => (name, "assets")
  | .liabilities name => (name, "liabilities")
  | .income name => (name, "income")
  | .equity name => (name, "equity")
  | .expenses name => (name, "expenses")

/-- The `Money` consumed by `src/lib.rs` (`balance.amount != 0.0` compares
the amount numerically): an amount with a sign and a currency tag, the
amount modelled as an exact rational. -/
structure CMoney where
  amount : ℚ
  sign : Sign
  currency : String
deriving DecidableEq

/-- `Movement` from `src/money.rs` line 79: kind, money, account. -/
structure CMovement where
  kind : MovementKind
  money : CMoney
  account : Account
deriving DecidableEq

/-- `Movement::credit` from `src/money.rs`. -/
def CMovement.creditOf (acc : Account) (money : CMoney) : CMovement :=
  ⟨.credit, money, acc⟩

/-- `Movement::debit` from `src/money.rs`. -/
def CMovement.debitOf (acc : Account) (money : CMoney) : CMovement :=
  ⟨.debit, money, acc⟩

/-- The `Transaction` value built by `Movement::to_transaction`
(`src/money.rs` lines 102-119): flattened account parts, amount, currency,
the signed amount `amount * signed_factor * sign`, and the credit flag. -/
structure CTransaction where
  id : ℕ
  date : NDate
  description : String
  account_parts : String × String
  account_name : String
  amount : ℚ
  currency : String
  signed_amount : ℚ
  is_credit : Bool
deriving DecidableEq

/-- `Movement::to_transaction` from `src/money.rs` lines 102-119. -/
def CMovement.to_transaction (m : CMovement) (id : ℕ) (date : NDate)
    (description : String) : CTransaction :=
  let parts := m.account.parts
  let signQ : ℚ := if m.money.sign = .negative then -1 else 1
  { id := id
    date := date
    description := description
    account_parts := parts
    account_name := parts.1 ++ ":" ++ parts.2
    amount := m.money.amount
    currency := m.money.currency
    signed_amount := m.money.amount * (m.account.signed_factor m.kind : ℚ) * signQ
    is_credit := m.kind = .credit }

/-- `BalanceVerification` from `src/lib.rs` lines 16-21 — note it carries
**no id field**. -/
structure CBalanceVerification where
  account : Account
  date : NDate
  expected : CMoney
deriving DecidableEq

/-- Modelled from the spec: the operation values consumed by
`compute_program` (`parser::Expr` in `src/lib.rs`; the parser generation
defining this type is not among the files under `src/`).  Spec §3: one
`Open`, `Balance` or `Transaction` operation per source statement. -/
inductive CExpr where
  | openE (date : NDate) (acc : Account) (balance : CMoney)
  | balanceE (date : NDate) (account : Account) (expected : CMoney)
  | transactionE (date : NDate) (desc : String) (movements : List CMovement)
deriving DecidableEq

/-- The loop body of `compute_program` (`src/lib.rs` lines 38-84), with the
running id counter made explicit.  `Open` with a zero balance emits
nothing and consumes no id; `Open` with a nonzero balance emits a
void-debit/account-credit pair consuming two ids; `Balance` pushes a
verification and consumes no id; `Transaction` emits one transaction per
movement, each consuming one id. -/
def computeGo : ℕ → List CExpr → List CTransaction × List CBalanceVerification
  | _, [] => ([], [])
  | id, e :: rest =>
    match e with
    | .openE date acc balance =>
      if balance.amount ≠ 0 then
        let t1 := (CMovement.debitOf Account.void balance).to_transaction id date "Account opening"
        let t2 := (CMovement.creditOf acc balance).to_transaction (id + 1) date "Account opening"
        let (ts, vs) := computeGo (id + 2) rest
        (t1 :: t2 :: ts, vs)
      else computeGo id rest
    | .balanceE date account expected =>
      let (ts, vs) := computeGo id rest
      (ts, ⟨account, date, expected⟩ :: vs)
    | .transactionE date desc movements =>
      let emitted := movements.enum.map fun p => p.2.to_transaction (id + p.1) date desc
      let (ts, vs) := computeGo (id + movements.length) rest
      (emitted ++ ts, vs)

/-- `compute_program` from `src/lib.rs` lines 38-84: the id counter starts
at `1`. -/
def compute_program (program : List CExpr) : List CTransaction × List CBalanceVerification :=
  computeGo 1 program

/-! ## Spec-side definitions

These two definitions follow the **spec's words**, not the source; they
exist to be compared with the source-derived validators above. -/

/-- Spec §4.4c: the exact rational cumulative signed balance of an account
up to and including a date — the sum of `amount * signed_factor` over all
of the account's transactions dated on or before `date`, with no floating
point anywhere. -/
def specCumulativeBalance (txs : List LTransaction) (acc : Account) (date : ℤ) : ℚ :=
  ((txs.filter fun t => decide (t.account = acc) && decide (t.date ≤ date)).map
    fun t => t.amount.amount * (t.account.signed_factor t.kind : ℚ)).sum

/-- Claim C4 / spec §4.4b: the exact rational signed sum of one
`parent_id` group using `amount * account.signed_factor(kind)`. -/
def specSignedGroupSum (txs : List LTransaction) (k : Option ℕ) : ℚ :=
  ((groupOf txs k).map fun t => t.amount.amount * (t.account.signed_factor t.kind : ℚ)).sum

/-- The exact rational sum of one `parent_id` group using the validators'
credit factor (`+1` credit / `-1` debit) instead of `signed_factor`, with no
floating point: what the isolation check computes up to `f64` rounding. -/
def specCreditGroupSum (txs : List LTransaction) (k : Option ℕ) : ℚ :=
  ((groupOf txs k).map fun t => t.amount.amount * creditFactor t).sum

/-- How many transactions (and hence ids) each operation makes
`compute_program` emit: none for a zero-balance `Open` or for a `Balance`,
two for a nonzero-balance `Open`, one per movement for a `Transaction`. -/
def emittedCount : List CExpr → ℕ
  | [] => 0
  | .openE _ _ balance :: rest =>
    (if balance.amount ≠ 0 then 2 else 0) + emittedCount rest
  | .balanceE _ _ _ :: rest => emittedCount rest
  | .transactionE _ _ movements :: rest => movements.length + emittedCount rest

/-! ## Concrete example inputs used by the theorems below -/

/-- One ledger transaction: a debit of `amount` on `assets:cash`. -/
def cashDebit (id : ℕ) (date : ℤ) (amount : ℚ) : LTransaction :=
  { id := id, date := date, description := "x", kind := .debit,
    account := .assets "cash", amount := ⟨amount, "BRL"⟩,
    spanStart := 0, spanEnd := 10, fromAmount := none, parentId := some 0 }

/-- Three debits of exactly `1/10` on `assets:cash`, all dated day `0`. -/
def tenthTxs : List LTransaction :=
  [cashDebit 1 0 (1/10), cashDebit 2 0 (1/10), cashDebit 3 0 (1/10)]

/-- A verification of `assets:cash` at day `1` asserting exactly `3/10`. -/
def tenthVerif : LBalanceVerification :=
  { id := 4, account := .assets "cash", date := 1, amount := ⟨3/10, "BRL"⟩,
    spanStart := 0, spanEnd := 10 }

/-- A verification of `assets:cash` at day `0` asserting `50`. -/
def fiftyVerif : LBalanceVerification :=
  { id := 2, account := .assets "cash", date := 0, amount := ⟨50, "BRL"⟩,
    spanStart := 0, spanEnd := 10 }

/-- A parent group that is balanced in the validators' credit/debit
convention: a debit of `100` on `assets:cash` against a credit of `100` on
`equity:fund`, sharing `parent_id = 1`. -/
def pairTxs : List LTransaction :=
  [{ id := 1, date := 0, description := "x", kind := .debit,
     account := .assets "cash", amount := ⟨100, "BRL"⟩,
     spanStart := 0, spanEnd := 10, fromAmount := none, parentId := some 1 },
   { id := 2, date := 0, description := "x", kind := .credit,
     account := .equity "fund", amount := ⟨100, "BRL"⟩,
     spanStart := 11, spanEnd := 20, fromAmount := none, parentId := some 1 }]

/-- A credit/debit pair of equal magnitude `60` on a single account,
sharing `parent_id = 1` (used as a witness ledger). -/
def pairTxs60 : List LTransaction :=
  [{ id := 1, date := 0, description := "x", kind := .debit,
     account := .assets "cash", amount := ⟨60, "BRL"⟩,
     spanStart := 0, spanEnd := 10, fromAmount := none, parentId := some 1 },
   { id := 2, date := 0, description := "x", kind := .credit,
     account := .assets "cash", amount := ⟨60, "BRL"⟩,
     spanStart := 11, spanEnd := 20, fromAmount := none, parentId := some 1 }]

/-- Tokens of the date literal `5000-01-01` (out of the claimed year
bound). -/
def dateToks5000 : List SpTok :=
  [(.number ((5000 : ℕ) : ℚ), (0, 4)), (.separator '-', (4, 5)),
   (.number ((1 : ℕ) : ℚ), (5, 7)), (.separator '-', (7, 8)),
   (.number ((1 : ℕ) : ℚ), (8, 10))]

/-- The token run of a date literal `y-m-d` at the given spans. -/
def dateToks (y m d : ℕ) (s1 s2 s3 s4 s5 : PSpan) : List SpTok :=
  [(.number ((y : ℕ) : ℚ), s1), (.separator '-', s2), (.number ((m : ℕ) : ℚ), s3),
   (.separator '-', s4), (.number ((d : ℕ) : ℚ), s5)]

/-- The token run of an account: a kind identifier followed by
colon-separated segments (one separator before each segment). -/
def accountToks (kindStr : String) (ksp : PSpan) (segs : List (String × PSpan)) : List SpTok :=
  (Tok.identifier kindStr, ksp) ::
    segs.flatMap fun p => [(Tok.separator ':', ((0:ℕ), (0:ℕ))), (Tok.identifier p.1, p.2)]

/-- Tokens of an account with four segments beyond its kind:
`assets:a:b:c:d`. -/
def accountToks4 : List SpTok :=
  [(.identifier "assets", (0, 6)), (.separator ':', (0, 0)),
   (.identifier "a", (7, 8)), (.separator ':', (0, 0)),
   (.identifier "b", (9, 10)), (.separator ':', (0, 0)),
   (.identifier "c", (11, 12)), (.separator ':', (0, 0)),
   (.identifier "d", (13, 14))]

/-- Tokens of a `transaction` statement with zero movements:
`2020-01-01 transaction "x"`. -/
def emptyTransactionToks : List SpTok :=
  dateToks 2020 1 1 (0, 4) (4, 5) (5, 7) (7, 8) (8, 10) ++
    [(.identifier "transaction", (11, 22)), (.str "x", (23, 26))]

/-- A one-movement, one-balance program for the ledger builder: first a
`Balance` statement, then a `Transaction` with a single movement. -/
def oneMovementProgram : List CExpr :=
  [.balanceE ⟨2020, 1, 1⟩ (.assets "cash") ⟨0, .positive, "BRL"⟩,
   .transactionE ⟨2020, 1, 2⟩ "x"
     [⟨.debit, ⟨100, .positive, "BRL"⟩, .assets "cash"⟩]]

/-! ## Helper lemmas: the binary64 model -/

theorem int_log_pin {q : ℚ} {e : ℤ} (hq : 0 < q) (h1 : (2:ℚ)^e ≤ q)
    (h2 : q < (2:ℚ)^(e+1)) : Int.log 2 q = e := by
  have hb : (1:ℕ) < 2 := by norm_num
  have hle : e ≤ Int.log 2 q := (Int.zpow_le_iff_le_log hb hq).mp (by exact_mod_cast h1)
  have hlt : Int.log 2 q < e + 1 := (Int.lt_zpow_iff_log_lt hb hq).mp (by exact_mod_cast h2)
  omega

theorem roundHalfEven_intCast (n : ℤ) : roundHalfEven (n : ℚ) = n := by
  unfold roundHalfEven
  simp

theorem f64round_zero : f64round 0 = 0 := by
  simp [f64round]

theorem f64round_concrete {q r : ℚ} {e : ℤ} (hq : 0 < q) (h1 : (2:ℚ)^e ≤ q)
    (h2 : q < (2:ℚ)^(e+1)) (he : e ≤ 52)
    (hr : (roundHalfEven (q * ((2 ^ (52 - e).toNat : ℕ) : ℚ)) : ℚ) /
      ((2 ^ (52 - e).toNat : ℕ) : ℚ) = r) :
    f64round q = r := by
  unfold f64round
  rw [if_neg hq.ne']
  simp only [abs_of_pos hq, int_log_pin hq h1 h2, hq.not_lt, if_false, he, if_true, one_mul]
  exact hr

theorem f64round_neg (q : ℚ) : f64round (-q) = -f64round q := by
  by_cases hq : q = 0
  · simp [f64round, hq]
  · by_cases hlt : q < 0
    · have h1 : ¬(-q < 0) := by linarith
      unfold f64round
      rw [if_neg (neg_ne_zero.mpr hq), if_neg hq]
      simp only [h1, if_false, hlt, if_true, abs_neg]
      by_cases he : Int.log 2 |q| ≤ 52 <;> simp only [he, if_true, if_false] <;> ring
    · have h0 : 0 < q := lt_of_le_of_ne (not_lt.mp hlt) (Ne.symm hq)
      have h1 : -q < 0 := by linarith
      unfold f64round
      rw [if_neg (neg_ne_zero.mpr hq), if_neg hq]
      simp only [h1, if_true, hlt, if_false, abs_neg]
      by_cases he : Int.log 2 |q| ≤ 52 <;> simp only [he, if_true, if_false] <;> ring

theorem f64round_natCast {n : ℕ} (h : n ≤ 2 ^ 53) : f64round (n : ℚ) = n := by
  rcases Nat.eq_zero_or_pos n with h0 | h0
  · simp [h0, f64round_zero]
  have hq : (0:ℚ) < n := by exact_mod_cast h0
  have hlog : Int.log 2 (n : ℚ) = Nat.log 2 n := Int.log_natCast 2 n
  have he0 : 0 ≤ Int.log 2 (n : ℚ) := by rw [hlog]; positivity
  have he53 : Int.log 2 (n : ℚ) ≤ 53 := by
    have hup : (n : ℚ) < (2:ℚ) ^ (54 : ℤ) := by
      have : (n : ℚ) ≤ (2:ℚ) ^ (53 : ℕ) := by exact_mod_cast h
      calc (n:ℚ) ≤ (2:ℚ)^(53:ℕ) := this
        _ < (2:ℚ)^(54:ℤ) := by norm_num
    have := (Int.lt_zpow_iff_log_lt (b := 2) (by norm_num) hq).mp hup
    omega
  by_cases he : Int.log 2 (n : ℚ) ≤ 52
  · set e := Int.log 2 (n : ℚ) with hedef
    have hk : ((2 ^ (52 - e).toNat : ℕ) : ℚ) = (2:ℚ) ^ (52 - e).toNat := by push_cast; ring
    have hint : (n : ℚ) * ((2 ^ (52 - e).toNat : ℕ) : ℚ) = ((n * 2 ^ (52 - e).toNat : ℕ) : ℚ) := by
      push_cast; ring
    unfold f64round
    rw [if_neg hq.ne']
    simp only [abs_of_pos hq, ← hedef, hq.not_lt, if_false, he, if_true, one_mul]
    rw [hint]
    have : roundHalfEven ((n * 2 ^ (52 - e).toNat : ℕ) : ℚ) = (n * 2 ^ (52 - e).toNat : ℕ) := by
      exact_mod_cast roundHalfEven_intCast ((n * 2 ^ (52 - e).toNat : ℕ) : ℤ)
    rw [this]
    rw [div_eq_iff (by positivity)]
    push_cast
    ring
  · have he' : Int.log 2 (n : ℚ) = 53 := by omega
    have hlow : (2:ℚ) ^ (53:ℤ) ≤ (n : ℚ) := by
      have := Int.zpow_log_le_self (b := 2) (by norm_num) hq
      rw [he'] at this
      exact_mod_cast this
    have hn : n = 2 ^ 53 := by
      have : (2:ℚ)^(53:ℤ) = ((2^53 : ℕ) : ℚ) := by norm_num
      rw [this] at hlow
      have hge : 2 ^ 53 ≤ n := by exact_mod_cast hlow
      omega
    subst hn
    unfold f64round
    rw [if_neg hq.ne']
    simp only [abs_of_pos hq, he', hq.not_lt, if_false, one_mul]
    norm_num
    rw [show (4503599627370496 : ℚ) = ((4503599627370496 : ℤ) : ℚ) from by norm_num]
    rw [roundHalfEven_intCast]
    norm_num

theorem f64round_intCast {n : ℤ} (h : n.natAbs ≤ 2 ^ 53) : f64round (n : ℚ) = n := by
  have hm : ((n.natAbs : ℕ) : ℚ) = |(n : ℚ)| := by
    rw [Int.cast_natAbs, Int.cast_abs]
  rcases le_or_lt 0 n with hn | hn
  · have hrw : (n : ℚ) = ((n.natAbs : ℕ) : ℚ) := by
      rw [hm, abs_of_nonneg (by exact_mod_cast hn : (0:ℚ) ≤ n)]
    rw [hrw, f64round_natCast h]
  · have hrw : (n : ℚ) = -((n.natAbs : ℕ) : ℚ) := by
      rw [hm, abs_of_neg (by exact_mod_cast hn : (n:ℚ) < 0)]
      ring
    rw [hrw, f64round_neg, f64round_natCast h]

theorem fadd_intCast {a b : ℤ} (h : (a + b).natAbs ≤ 2 ^ 53) :
    fadd (a : ℚ) (b : ℚ) = ((a + b : ℤ) : ℚ) := by
  unfold fadd
  rw [show (a : ℚ) + (b : ℚ) = ((a + b : ℤ) : ℚ) from by push_cast; ring]
  exact f64round_intCast h

theorem fr_tenth : f64round (1/10 : ℚ) = 3602879701896397 / 36028797018963968 := by
  apply f64round_concrete (e := -4) (by norm_num) (by norm_num) (by norm_num) (by norm_num)
  rw [show ((52:ℤ) - (-4)).toNat = 56 from by decide]
  unfold roundHalfEven
  norm_num

theorem fr_tenth_idem :
    f64round (3602879701896397 / 36028797018963968 : ℚ) = 3602879701896397 / 36028797018963968 := by
  apply f64round_concrete (e := -4) (by norm_num) (by norm_num) (by norm_num) (by norm_num)
  rw [show ((52:ℤ) - (-4)).toNat = 56 from by decide]
  rw [show ((3602879701896397 / 36028797018963968 : ℚ) * ((2 ^ 56 : ℕ) : ℚ))
      = ((7205759403792794 : ℤ) : ℚ) from by norm_num]
  rw [roundHalfEven_intCast]
  norm_num

theorem fr_two_tenths :
    f64round (3602879701896397 / 18014398509481984 : ℚ) = 3602879701896397 / 18014398509481984 := by
  apply f64round_concrete (e := -3) (by norm_num) (by norm_num) (by norm_num) (by norm_num)
  rw [show ((52:ℤ) - (-3)).toNat = 55 from by decide]
  rw [show ((3602879701896397 / 18014398509481984 : ℚ) * ((2 ^ 55 : ℕ) : ℚ))
      = ((7205759403792794 : ℤ) : ℚ) from by norm_num]
  rw [roundHalfEven_intCast]
  norm_num

theorem fr_three_tenths :
    f64round (10808639105689191 / 36028797018963968 : ℚ) = 1351079888211149 / 4503599627370496 := by
  apply f64round_concrete (e := -2) (by norm_num) (by norm_num) (by norm_num) (by norm_num)
  rw [show ((52:ℤ) - (-2)).toNat = 54 from by decide]
  unfold roundHalfEven
  norm_num

theorem fsum_three_tenths :
    fsum [3602879701896397 / 36028797018963968, 3602879701896397 / 36028797018963968,
      3602879701896397 / 36028797018963968] = 1351079888211149 / 4503599627370496 := by
  unfold fsum
  simp only [List.foldl_cons, List.foldl_nil]
  rw [show fadd 0 (3602879701896397 / 36028797018963968)
      = f64round (3602879701896397 / 36028797018963968 : ℚ) from by rw [fadd, zero_add]]
  rw [fr_tenth_idem]
  rw [show fadd (3602879701896397 / 36028797018963968) (3602879701896397 / 36028797018963968)
      = f64round (3602879701896397 / 18014398509481984 : ℚ) from by rw [fadd]; norm_num]
  rw [fr_two_tenths]
  rw [show fadd (3602879701896397 / 18014398509481984) (3602879701896397 / 36028797018963968)
      = f64round (10808639105689191 / 36028797018963968 : ℚ) from by rw [fadd]; norm_num]
  rw [fr_three_tenths]

theorem natAbs_sum_le (l : List ℤ) (B : ℕ) (h : ∀ x ∈ l, x.natAbs ≤ B) :
    l.sum.natAbs ≤ l.length * B := by
  induction l with
  | nil => simp
  | cons x xs ih =>
    have hx := h x (List.mem_cons_self x xs)
    have hxs := ih fun y hy => h y (List.mem_cons_of_mem x hy)
    calc (x :: xs).sum.natAbs = (x + xs.sum).natAbs := by rw [List.sum_cons]
      _ ≤ x.natAbs + xs.sum.natAbs := Int.natAbs_add_le x xs.sum
      _ ≤ B + xs.length * B := Nat.add_le_add hx hxs
      _ = (x :: xs).length * B := by rw [List.length_cons]; ring

theorem foldl_fadd_int (l : List ℤ) (c : ℤ)
    (h : ∀ n : ℕ, (c + (l.take n).sum).natAbs ≤ 2 ^ 53) :
    List.foldl fadd (c : ℚ) (l.map (Int.cast : ℤ → ℚ)) = ((c + l.sum : ℤ) : ℚ) := by
  induction l generalizing c with
  | nil => simp
  | cons x xs ih =>
    have h1 : (c + x).natAbs ≤ 2 ^ 53 := by
      have := h 1
      simpa using this
    have h2 : ∀ n : ℕ, ((c + x) + (xs.take n).sum).natAbs ≤ 2 ^ 53 := by
      intro n
      have := h (n + 1)
      simpa [List.take_succ_cons, add_assoc] using this
    rw [List.map_cons, List.foldl_cons, fadd_intCast h1, ih (c + x) h2]
    simp [add_assoc]

theorem fsum_intCast (l : List ℤ) (h : ∀ n : ℕ, ((l.take n).sum).natAbs ≤ 2 ^ 53) :
    fsum (l.map (Int.cast : ℤ → ℚ)) = ((l.sum : ℤ) : ℚ) := by
  unfold fsum
  rw [show (0:ℚ) = ((0:ℤ):ℚ) from by norm_num, foldl_fadd_int l 0 (by simpa using h)]
  norm_num

theorem fr_hundred : f64round (100 : ℚ) = 100 := by
  rw [show (100:ℚ) = ((100:ℕ):ℚ) from by norm_num, f64round_natCast (by norm_num)]

/-! ## Claim C10 -/

/-- Claim C10: for every `Account` and every `MovementKind` the signed
factor is `+1` or `-1`, the debit factor is the negation of the credit
factor, and flipping a movement's kind exactly negates its signed amount
`q * signed_factor`. -/
theorem c10_signed_factor_involution (a : Account) (k : MovementKind) (q : ℚ) :
    (a.signed_factor k = 1 ∨ a.signed_factor k = -1)
    ∧ a.signed_factor .debit = -a.signed_factor .credit
    ∧ q * (a.signed_factor .debit : ℚ) = -(q * (a.signed_factor .credit : ℚ)) := by
  refine ⟨?_, ?_, ?_⟩
  · cases a <;> cases k <;> simp [Account.signed_factor]
  · cases a <;> simp [Account.signed_factor]
  · cases a <;> simp [Account.signed_factor]

/-! ## Claim C1 -/

/-- Claim C1, counterexample: for the ledger with three `assets:cash`
debits of exactly `1/10` and a verification asserting exactly `3/10` one
day later, the exact cumulative signed balance equals the asserted amount,
yet the reconciliation routine `Transactions::validate_balances` does not
succeed — it panics (no mismatch trace is emitted), because the amounts are
summed as binary64 floating-point numbers, where the sum is
`0.30000000000000004`. -/
theorem c1_reconciliation_counterexample :
    specCumulativeBalance tenthTxs (.assets "cash") 1 = 3/10
    ∧ validate_balances tenthTxs [tenthVerif] =
      .panicMismatch ⟨3/10, "BRL"⟩ (1351079888211149 / 4503599627370496)
    ∧ (1351079888211149 / 4503599627370496 : ℚ) ≠ 3/10 := by
  refine ⟨?_, ?_, by norm_num⟩
  · simp [specCumulativeBalance, tenthTxs, cashDebit, Account.signed_factor, List.filter]
    norm_num
  · simp [validate_balances, tenthTxs, tenthVerif, cashDebit, Account.render, List.filter,
      LTransaction.signedAmount, Account.signed_factor, moneyEquals]
    simp only [← one_div]
    rw [fr_tenth, fsum_three_tenths]
    norm_num

/-- Claim C1, amended: `Transactions::validate_balances` succeeds exactly
when, for every verification, the verification's amount equals the
binary64 floating-point sum of the `signed_amount` column (each amount
rounded to a double by `BigRational::to_f64` and multiplied by
`signed_factor`) over the account's transactions dated on or before the
verification date, same-day transactions included; on the first
verification for which the two differ it panics instead of emitting a
trace. -/
theorem c1_reconciliation_amended (txs : List LTransaction)
    (verifs : List LBalanceVerification) :
    validate_balances txs verifs = .ok ↔
      ∀ v ∈ verifs, v.amount.amount =
        fsum ((txs.filter fun t =>
          decide (t.account.render = v.account.render) && decide (t.date ≤ v.date)).map
          LTransaction.signedAmount) := by
  induction verifs with
  | nil => simp [validate_balances]
  | cons v rest ih =>
    simp only [validate_balances, moneyEquals]
    by_cases h : v.amount.amount =
        fsum ((txs.filter fun t =>
          decide (t.account.render = v.account.render) && decide (t.date ≤ v.date)).map
          LTransaction.signedAmount)
    · rw [if_pos (by simpa using h)]
      rw [ih]
      constructor
      · intro hall w hw
        rcases List.mem_cons.mp hw with rfl | hw'
        · exact h
        · exact hall w hw'
      · intro hall w hw
        exact hall w (List.mem_cons_of_mem v hw)
    · rw [if_neg (by simpa using h)]
      constructor
      · intro hfalse
        exact absurd hfalse (by simp)
      · intro hall
        exact absurd (hall v (List.mem_cons_self v rest)) h

/-! ## Claim C3 -/

/-- Claim C3, counterexample: a validation code path does panic — on a
ledger with one `assets:cash` debit of `100` and a same-day verification
asserting `50`, `Transactions::validate_balances` hits its
`panic!("Balances do not match …")` branch instead of producing a trace. -/
theorem c3_no_panic_counterexample :
    validate_balances [cashDebit 1 0 100] [fiftyVerif] =
      .panicMismatch ⟨50, "BRL"⟩ 100 := by
  simp [validate_balances, cashDebit, fiftyVerif, Account.render, List.filter,
    LTransaction.signedAmount, Account.signed_factor, fsum, fadd, moneyEquals, fr_hundred]

/-- Claim C3, amended: the two polars-based checks
`validate_credits_and_debits_balance` and
`validate_all_isolated_transactions_balance` return either success or a
non-empty list of `Trace` records; the balance reconciliation routine
`Transactions::validate_balances`, however, either succeeds or panics — its
failure path produces no trace. -/
theorem c3_no_panic_amended (txs : List LTransaction)
    (verifs : List LBalanceVerification) :
    (validate_credits_and_debits_balance txs = .ok ()
      ∨ ∃ traces, validate_credits_and_debits_balance txs = .error (.withTrace traces)
          ∧ traces ≠ [])
    ∧ (validate_all_isolated_transactions_balance txs = .ok ()
      ∨ ∃ traces, validate_all_isolated_transactions_balance txs = .error (.withTrace traces)
          ∧ traces ≠ [])
    ∧ (validate_balances txs verifs = .ok
      ∨ ∃ m g, validate_balances txs verifs = .panicMismatch m g) := by
  refine ⟨?_, ?_, ?_⟩
  · unfold validate_credits_and_debits_balance
    by_cases h : (f64ToU64 (fsum ((txs.filter LTransaction.is_credit).map
        LTransaction.amountF64))).getD 0
        = (f64ToU64 (fsum ((txs.filter fun t => !t.is_credit).map
            LTransaction.amountF64))).getD 0
    · left
      rw [if_pos h]
    · right
      rw [if_neg h]
      exact ⟨_, rfl, by simp⟩
  · unfold validate_all_isolated_transactions_balance
    by_cases h : (unbalancedKeys txs).isEmpty
    · left
      rw [if_pos h]
    · right
      rw [if_neg h]
      refine ⟨_, rfl, fun hnil => h ?_⟩
      rw [List.isEmpty_iff]
      exact List.map_eq_nil_iff.mp hnil
  · induction verifs with
    | nil => left; rfl
    | cons v rest ih =>
      simp only [validate_balances]
      by_cases h : moneyEquals v.amount (fsum ((txs.filter fun t =>
          decide (t.account.render = v.account.render) && decide (t.date ≤ v.date)).map
          LTransaction.signedAmount))
      · rw [if_pos h]
        exact ih
      · rw [if_neg h]
        right
        exact ⟨_, _, rfl⟩

/-! ## Claim C4 -/

theorem fr_one : f64round (1 : ℚ) = 1 := by
  rw [show (1:ℚ) = ((1:ℕ):ℚ) from by norm_num, f64round_natCast (by norm_num)]

/-- The sign-adjusted integer value of a row whose amount is the natural
number `A t`. -/
def rowSigned (A : LTransaction → ℕ) (t : LTransaction) : ℤ :=
  if t.is_credit then (A t : ℤ) else -(A t : ℤ)

theorem amountF64_natCast {t : LTransaction} {n : ℕ} (hAt : t.amount.amount = (n : ℚ))
    (hle : n ≤ 2 ^ 53) : t.amountF64 = (n : ℚ) := by
  unfold LTransaction.amountF64
  rw [hAt, Rat.num_natCast, Rat.den_natCast]
  rw [show (((n : ℤ)) : ℚ) = ((n : ℕ) : ℚ) from by push_cast; ring]
  rw [f64round_natCast hle]
  rw [show (((1:ℕ)) : ℚ) = ((1:ℕ) : ℚ) from rfl, Nat.cast_one, fr_one]
  unfold fdiv
  rw [div_one, f64round_natCast hle]

theorem row_f64_eq_int {t : LTransaction} {A : LTransaction → ℕ}
    (hAt : t.amount.amount = (A t : ℚ)) (hle : A t ≤ 2 ^ 40) :
    t.amountF64 * creditFactor t = ((rowSigned A t : ℤ) : ℚ) := by
  rw [amountF64_natCast hAt (le_trans hle (by norm_num))]
  unfold creditFactor rowSigned
  by_cases hc : t.is_credit <;> simp [hc]

theorem row_exact_eq_int {t : LTransaction} {A : LTransaction → ℕ}
    (hAt : t.amount.amount = (A t : ℚ)) :
    t.amount.amount * creditFactor t = ((rowSigned A t : ℤ) : ℚ) := by
  rw [hAt]
  unfold creditFactor rowSigned
  by_cases hc : t.is_credit <;> simp [hc]

theorem groupSignedSum_exact (txs : List LTransaction) (k : Option ℕ)
    (A : LTransaction → ℕ)
    (hA : ∀ t ∈ txs, t.amount.amount = (A t : ℚ) ∧ A t ≤ 2 ^ 40)
    (hlen : (groupOf txs k).length ≤ 2 ^ 12) :
    groupSignedSum txs k = specCreditGroupSum txs k
    ∧ groupSignedSum txs k = ((((groupOf txs k).map (rowSigned A)).sum : ℤ) : ℚ) := by
  have hmem : ∀ t ∈ groupOf txs k, t ∈ txs := fun t ht => List.mem_of_mem_filter ht
  have hmap : (groupOf txs k).map (fun t => t.amountF64 * creditFactor t)
      = ((groupOf txs k).map (rowSigned A)).map (Int.cast : ℤ → ℚ) := by
    rw [List.map_map]
    refine List.map_congr_left fun t ht => ?_
    obtain ⟨hAt, hle⟩ := hA t (hmem t ht)
    exact row_f64_eq_int hAt hle
  have hbound : ∀ n : ℕ, ((((groupOf txs k).map (rowSigned A)).take n).sum).natAbs ≤ 2 ^ 53 := by
    intro n
    rw [← List.map_take]
    have h1 : (((groupOf txs k).take n).map (rowSigned A)).sum.natAbs
        ≤ (((groupOf txs k).take n).map (rowSigned A)).length * 2 ^ 40 := by
      apply natAbs_sum_le
      intro x hx
      obtain ⟨t, ht, rfl⟩ := List.mem_map.mp hx
      have := (hA t (hmem t (List.take_subset n _ ht))).2
      unfold rowSigned
      by_cases hc : t.is_credit <;> simp [hc] <;> omega
    calc (((groupOf txs k).take n).map (rowSigned A)).sum.natAbs
        ≤ (((groupOf txs k).take n).map (rowSigned A)).length * 2 ^ 40 := h1
      _ ≤ (2 ^ 12) * 2 ^ 40 := by
          apply Nat.mul_le_mul_right
          rw [List.length_map, List.length_take]
          exact le_trans (min_le_right _ _) hlen
      _ ≤ 2 ^ 53 := by norm_num
  have hsum : groupSignedSum txs k = ((((groupOf txs k).map (rowSigned A)).sum : ℤ) : ℚ) := by
    unfold groupSignedSum
    rw [hmap, fsum_intCast _ hbound]
  refine ⟨?_, hsum⟩
  rw [hsum]
  unfold specCreditGroupSum
  rw [show (groupOf txs k).map (fun t => t.amount.amount * creditFactor t)
      = ((groupOf txs k).map (rowSigned A)).map (Int.cast : ℤ → ℚ) from by
    rw [List.map_map]
    refine List.map_congr_left fun t ht => ?_
    exact row_exact_eq_int (hA t (hmem t ht)).1]
  rw [← Int.cast_list_sum]

theorem amountF64_hundred {t : LTransaction} (h : t.amount.amount = 100) :
    t.amountF64 = 100 := by
  have := amountF64_natCast (t := t) (n := 100) (by rw [h]; norm_num) (by norm_num)
  rw [this]
  norm_num

theorem groupSignedSum_pairTxs : groupSignedSum pairTxs (some 1) = 0 := by
  unfold groupSignedSum groupOf
  simp only [pairTxs, List.filter, creditFactor, LTransaction.is_credit]
  norm_num
  rw [amountF64_hundred (by norm_num), amountF64_hundred (by norm_num)]
  simp only [if_neg (show ¬ (MovementKind.debit = MovementKind.credit) from by simp)]
  unfold fsum
  simp only [List.foldl_cons, List.foldl_nil]
  rw [show fadd 0 (-100:ℚ) = f64round (((-100 : ℤ)) : ℚ) from by rw [fadd]; norm_num]
  rw [f64round_intCast (by norm_num)]
  rw [show fadd (((-100:ℤ)):ℚ) (100:ℚ) = f64round ((0:ℤ) : ℚ) from by
    rw [fadd]; push_cast; norm_num]
  rw [f64round_intCast (by norm_num)]
  norm_num

theorem groupSignedSum_single : groupSignedSum [cashDebit 1 0 100] (some 0) = -100 := by
  unfold groupSignedSum groupOf
  simp only [cashDebit, List.filter, creditFactor, LTransaction.is_credit]
  norm_num
  rw [amountF64_hundred (by norm_num)]
  simp only [if_neg (show ¬ (MovementKind.debit = MovementKind.credit) from by simp)]
  unfold fsum
  simp only [List.foldl_cons, List.foldl_nil]
  rw [show fadd 0 (-100:ℚ) = f64round (((-100 : ℤ)) : ℚ) from by rw [fadd]; norm_num]
  rw [f64round_intCast (by norm_num)]
  norm_num

theorem formatFixed2_neg_hundred : formatFixed2 (-100 : ℚ) = "-100.00" := by
  unfold formatFixed2
  rw [show ((-100:ℚ) * 100) = ((-10000:ℤ):ℚ) from by norm_num, roundHalfEven_intCast]
  decide

/-- Claim C4, counterexample: the isolation check does **not** use
`account.signed_factor` — for the group consisting of a debit of `100` on
`assets:cash` and a credit of `100` on `equity:fund`, the check passes
(the credit/debit sum is zero) although the sum of
`amount * signed_factor(kind)` over the group is `200`, not zero; and on
an unbalanced single-row group the emitted trace carries the string
`"0.0"` as `expected`, not `"0"`. -/
theorem c4_isolation_counterexample :
    validate_all_isolated_transactions_balance pairTxs = .ok ()
    ∧ specSignedGroupSum pairTxs (some 1) = 200
    ∧ validate_all_isolated_transactions_balance [cashDebit 1 0 100] =
      .error (.withTrace [{
        message := "Transaction does not balance"
        details := "Inside a transaction, all debits and credits must balance in the end."
        span := some (0, 9)
        found := some "-100.00"
        expected := some "0.0" }]) := by
  refine ⟨?_, ?_, ?_⟩
  · have hk : firstOccur (pairTxs.map (fun t => t.parentId)) = [some 1] := by
      simp [pairTxs, firstOccur]
    unfold validate_all_isolated_transactions_balance unbalancedKeys
    rw [hk]
    simp [List.filter, groupSignedSum_pairTxs]
  · simp [specSignedGroupSum, groupOf, pairTxs, Account.signed_factor, List.filter]
    norm_num
  · have hk : firstOccur ([cashDebit 1 0 100].map (fun t => t.parentId)) = [some 0] := by
      simp [cashDebit, firstOccur]
    unfold validate_all_isolated_transactions_balance unbalancedKeys
    rw [hk]
    rw [show List.filter (fun k => decide (groupSignedSum [cashDebit 1 0 100] k ≠ 0)) [some 0]
        = [some 0] from by simp [List.filter, groupSignedSum_single]]
    simp only [List.isEmpty_cons, List.map_cons, List.map_nil]
    rw [if_neg (by simp)]
    rw [groupSignedSum_single, formatFixed2_neg_hundred]
    have hspan : groupSpan [cashDebit 1 0 100] (some 0) = some (0, 9) := by
      unfold groupSpan groupOf
      simp [cashDebit, List.filter]
    rw [hspan]

/-- Claim C4, amended: for ledgers whose amounts are natural numbers of at
most `2^40` in `parent_id` groups of at most `2^12` rows (where the `f64`
pipeline is exact), the isolation check passes exactly when every group's
exact sum of `amount * (+1 if credit else -1)` is zero — the factor is the
credit flag, not `account.signed_factor` — and on failure every emitted
trace has the string `"0.0"` as `expected` and the trace list is
non-empty, one trace per unbalanced group. -/
theorem c4_isolation_amended (txs : List LTransaction) (A : LTransaction → ℕ)
    (hA : ∀ t ∈ txs, t.amount.amount = (A t : ℚ) ∧ A t ≤ 2 ^ 40)
    (hlen : ∀ k, (groupOf txs k).length ≤ 2 ^ 12) :
    (validate_all_isolated_transactions_balance txs = .ok () ↔
      ∀ k ∈ firstOccur (txs.map (fun t => t.parentId)), specCreditGroupSum txs k = 0)
    ∧ (∀ traces, validate_all_isolated_transactions_balance txs = .error (.withTrace traces) →
        traces ≠ [] ∧ ∀ tr ∈ traces, tr.expected = some "0.0") := by
  have hks : ∀ k, groupSignedSum txs k = specCreditGroupSum txs k :=
    fun k => (groupSignedSum_exact txs k A hA (hlen k)).1
  have hempty : (unbalancedKeys txs).isEmpty = true ↔
      ∀ k ∈ firstOccur (txs.map (fun t => t.parentId)), specCreditGroupSum txs k = 0 := by
    rw [List.isEmpty_iff]
    unfold unbalancedKeys
    rw [List.filter_eq_nil_iff]
    constructor
    · intro hall k hk
      have := hall k hk
      rw [decide_eq_true_eq] at this
      rw [← hks k]
      exact not_not.mp this
    · intro hall k hk
      rw [decide_eq_true_eq]
      rw [not_not, hks k]
      exact hall k hk
  constructor
  · unfold validate_all_isolated_transactions_balance
    constructor
    · intro h
      by_cases hemp : (unbalancedKeys txs).isEmpty
      · exact hempty.mp hemp
      · rw [if_neg hemp] at h
        exact absurd h (by simp)
    · intro hall
      rw [if_pos (hempty.mpr hall)]
  · intro traces htr
    unfold validate_all_isolated_transactions_balance at htr
    by_cases hemp : (unbalancedKeys txs).isEmpty
    · rw [if_pos hemp] at htr
      exact absurd htr (by simp)
    · rw [if_neg hemp] at htr
      have hmap := htr
      simp only [Except.error.injEq, VError.withTrace.injEq] at hmap
      constructor
      · rw [← hmap]
        intro hnil
        exact hemp (by rw [List.isEmpty_iff]; exact List.map_eq_nil_iff.mp hnil)
      · intro tr htrm
        rw [← hmap] at htrm
        obtain ⟨k, _, rfl⟩ := List.mem_map.mp htrm
        rfl

/-- Claim C4, witness: the amended theorem applied to the concrete
balanced 60/60 credit-debit pair. -/
theorem c4_isolation_witness :
    validate_all_isolated_transactions_balance pairTxs60 = .ok () := by
  refine ((c4_isolation_amended pairTxs60 (fun _ => 60) ?_ ?_).1).mpr ?_
  · intro t ht
    refine ⟨?_, by norm_num⟩
    simp only [pairTxs60, List.mem_cons, List.not_mem_nil, or_false] at ht
    rcases ht with rfl | rfl <;> norm_num
  · intro k
    refine le_trans (List.length_filter_le _ _) ?_
    simp [pairTxs60]
  · intro k hk
    simp only [pairTxs60, firstOccur] at hk
    norm_num at hk
    subst hk
    simp [specCreditGroupSum, groupOf, pairTxs60, creditFactor, LTransaction.is_credit,
      List.filter]

/-! ## Claim C9 -/

theorem enum_map_add (l : List CMovement) (id : ℕ) :
    l.enum.map (fun p => id + p.1) = List.range' id l.length := by
  rw [List.range'_eq_map_range]
  rw [show (fun p : ℕ × CMovement => id + p.1) = (fun i => id + i) ∘ Prod.fst from rfl]
  rw [← List.map_map, List.enum_map_fst]

theorem computeGo_ids (program : List CExpr) : ∀ id : ℕ,
    ((computeGo id program).1.map (fun t => t.id)) = List.range' id (emittedCount program) := by
  induction program with
  | nil => intro id; simp [computeGo, emittedCount]
  | cons e rest ih =>
    intro id
    cases e with
    | openE date acc balance =>
      by_cases hz : balance.amount ≠ 0
      · simp only [computeGo, emittedCount, if_pos hz]
        simp only [List.map_cons, CMovement.to_transaction]
        rw [ih (id + 2)]
        rw [show (2 + emittedCount rest) = (emittedCount rest + 1) + 1 from by ring,
          List.range'_succ, List.range'_succ]
      · simp only [computeGo, emittedCount, if_neg hz]
        rw [ih id]
        simp
    | balanceE date account expected =>
      simp only [computeGo, emittedCount]
      exact ih id
    | transactionE date desc movements =>
      simp only [computeGo, emittedCount]
      rw [List.map_append, ih (id + movements.length)]
      rw [show (movements.enum.map fun p => p.2.to_transaction (id + p.1) date desc).map
          (fun t => t.id) = movements.enum.map (fun p => id + p.1) from by
        rw [List.map_map]; rfl]
      rw [enum_map_add]
      rw [Nat.add_comm movements.length (emittedCount rest), ← List.range'_append_1]

/-- Claim C9, counterexample: a `Balance` statement consumes **no** id —
after one balance verification, the first movement of the next transaction
still receives id `1` (under the claim it would receive an id greater than
1), and the built verification record carries no id at all (the
`BalanceVerification` of `src/lib.rs` has no id field). -/
theorem c9_ids_counterexample :
    ((compute_program oneMovementProgram).1.map (fun t => t.id) = [1])
    ∧ (compute_program oneMovementProgram).2.length = 1 := by
  constructor <;>
    simp [compute_program, computeGo, oneMovementProgram, CMovement.to_transaction]

/-- Claim C9, amended: `compute_program` assigns ids from a single counter
starting at `1`, consumed **only by emitted transactions**: one per
movement of a `Transaction`, two for an `Open` with nonzero balance, none
for a zero-balance `Open` or a `Balance` (verifications carry no id).  The
resulting transaction ids are exactly `1, 2, …` in source order — unique
and strictly increasing. -/
theorem c9_ids_amended (program : List CExpr) :
    ((compute_program program).1.map (fun t => t.id)) =
      List.range' 1 (emittedCount program)
    ∧ ((compute_program program).1.map (fun t => t.id)).Pairwise (· < ·) := by
  unfold compute_program
  refine ⟨computeGo_ids program 1, ?_⟩
  rw [computeGo_ids program 1]
  exact List.pairwise_lt_range' 1 (emittedCount program) 1 (by omega)

/-! ## Claims C5, C6, C7: evaluation of the token parsers -/

theorem boundedNumberP_number (a b : ℕ) (q : ℚ) (sp : PSpan) (rest : List SpTok) :
    boundedNumberP a b ((Tok.number q, sp) :: rest) = .ok ((q, sp), rest) := by
  unfold boundedNumberP Tok.get_number
  simp

theorem sepP_self (c : Char) (sp : PSpan) (rest : List SpTok) :
    sepP c ((Tok.separator c, sp) :: rest) = .ok ((Tok.separator c, sp), rest) := by
  unfold sepP
  simp

theorem toI32_natCast {y : ℕ} (h : y ≤ 2147483647) : toI32 ((y : ℕ) : ℚ) = some (y : ℤ) := by
  unfold toI32
  rw [Rat.num_natCast, Rat.den_natCast]
  rw [show ((1:ℕ):ℤ) = 1 from rfl, Int.tdiv_one]
  rw [if_pos (by constructor <;> omega)]

theorem toU32_natCast {y : ℕ} (h : y ≤ 4294967295) : toU32 ((y : ℕ) : ℚ) = some (y : ℤ) := by
  unfold toU32
  rw [Rat.num_natCast, Rat.den_natCast]
  rw [show ((1:ℕ):ℤ) = 1 from rfl, Int.tdiv_one]
  rw [if_pos (by constructor <;> omega)]

theorem tryToDate_natCast (span : PSpan) (y m d : ℕ)
    (hy : y ≤ 2147483647) (hm : m ≤ 4294967295) (hd : d ≤ 4294967295) :
    tryToDate span ((y:ℕ):ℚ) ((m:ℕ):ℚ) ((d:ℕ):ℚ) =
      match fromYmdOpt y m d with
      | some nd => .ok nd
      | none => .error (.expected span) := by
  unfold tryToDate
  rw [toI32_natCast hy, toU32_natCast hm, toU32_natCast hd]

theorem dateP_eval_append (y m d : ℕ) (s1 s2 s3 s4 s5 : PSpan) (rest : List SpTok)
    (hy : y ≤ 2147483647) (hm : m ≤ 4294967295) (hd : d ≤ 4294967295) :
    dateP (dateToks y m d s1 s2 s3 s4 s5 ++ rest) =
      match fromYmdOpt y m d with
      | some nd => .ok ((.date nd, (s1.1, s5.2)), rest)
      | none => .error (.expected (s1.1, s5.2)) := by
  unfold dateToks
  simp only [List.cons_append, List.nil_append, dateP, boundedNumberP_number, sepP_self,
    tryToDate_natCast _ y m d hy hm hd]
  cases fromYmdOpt (y:ℤ) (m:ℤ) (d:ℤ) <;> rfl

theorem dateP_eval (y m d : ℕ) (s1 s2 s3 s4 s5 : PSpan)
    (hy : y ≤ 2147483647) (hm : m ≤ 4294967295) (hd : d ≤ 4294967295) :
    dateP (dateToks y m d s1 s2 s3 s4 s5) =
      match fromYmdOpt y m d with
      | some nd => .ok ((.date nd, (s1.1, s5.2)), [])
      | none => .error (.expected (s1.1, s5.2)) := by
  have := dateP_eval_append y m d s1 s2 s3 s4 s5 [] hy hm hd
  rw [List.append_nil] at this
  exact this

/-- Claim C5, counterexample: the component bounds are **not** enforced —
the date literal `5000-01-01`, whose year is outside the claimed
`1000..=3000` range, parses successfully (the second match arm of
`bounded_number` accepts any out-of-bounds number). -/
theorem c5_date_counterexample :
    dateP dateToks5000 = .ok ((.date ⟨5000, 1, 1⟩, (0, 10)), []) := by
  rw [show dateToks5000 = dateToks 5000 1 1 (0,4) (4,5) (5,7) (7,8) (8,10) from rfl]
  rw [dateP_eval 5000 1 1 _ _ _ _ _ (by norm_num) (by norm_num) (by norm_num)]
  rw [show fromYmdOpt ((5000:ℕ):ℤ) ((1:ℕ):ℤ) ((1:ℕ):ℤ)
      = some ⟨5000, 1, 1⟩ from by decide]

/-- Claim C5, amended: the bounds of `bounded_number` are dead code (any
number token is accepted for each component); a `y-m-d` token run parses
exactly when the integer triple is accepted by the calendar-aware
constructor `NaiveDate::from_ymd_opt` — so calendar-invalid combinations
such as day 31 in April (or February 30) are still rejected, but the year
1000-3000, month 1-12 and day 1-31 ranges are not checked.  (The
hypotheses are the `i32`/`u32` conversion ranges of `try_to_date`.) -/
theorem c5_date_amended (y m d : ℕ) (s1 s2 s3 s4 s5 : PSpan)
    (hy : y ≤ 2147483647) (hm : m ≤ 4294967295) (hd : d ≤ 4294967295) :
    dateP (dateToks y m d s1 s2 s3 s4 s5) =
      match fromYmdOpt y m d with
      | some nd => .ok ((.date nd, (s1.1, s5.2)), [])
      | none => .error (.expected (s1.1, s5.2)) :=
  dateP_eval y m d s1 s2 s3 s4 s5 hy hm hd

/-- Claim C5, witness: the amended theorem applied to the calendar-invalid
date `2021-02-30`, which is rejected. -/
theorem c5_date_witness :
    dateP (dateToks 2021 2 30 (0,4) (4,5) (5,7) (7,8) (8,10)) =
      .error (.expected (0, 10)) := by
  rw [c5_date_amended 2021 2 30 (0,4) (4,5) (5,7) (7,8) (8,10)
    (by norm_num) (by norm_num) (by norm_num)]
  rw [show fromYmdOpt ((2021:ℕ):ℤ) ((2:ℕ):ℤ) ((30:ℕ):ℤ) = none from by decide]

theorem idSepRun_interleaved (segs : List (String × PSpan)) :
    idSepRun (segs.flatMap fun p =>
      [(Tok.separator ':', ((0:ℕ), (0:ℕ))), (Tok.identifier p.1, p.2)]) = (segs, []) := by
  induction segs with
  | nil => rfl
  | cons p rest ih =>
    rw [List.flatMap_cons, List.cons_append, List.cons_append, List.nil_append]
    simp only [idSepRun]
    rw [ih]

theorem kindP_assets (ksp : PSpan) (rest : List SpTok) :
    kindP ((Tok.identifier "assets", ksp) :: rest) = .ok ((.assets, ksp), rest) := by
  unfold kindP
  simp

theorem accountP_eval (ksp : PSpan) (segs : List (String × PSpan)) (h : segs ≠ []) :
    accountP (accountToks "assets" ksp segs) =
      if segs.length > 3 then
        .error (.custom (ksp.1, (segs.getLast h).2.2) "Accounts can contain at most 4 segments")
      else
        .ok ((.account ⟨.assets, segs.map Prod.fst⟩, (ksp.1, (segs.getLast h).2.2)), []) := by
  unfold accountToks
  simp only [accountP, kindP_assets, idSepRun_interleaved]
  rw [List.getLast?_eq_getLast _ h]

/-- Claim C6, counterexample: an account with four segments beyond its kind
does fail, with a span covering the whole account token run, but the error
message is `"Accounts can contain at most 4 segments"`, not
`"accounts may contain at most 3 segments beyond their kind."`. -/
theorem c6_segment_cap_counterexample :
    accountP accountToks4 =
      .error (.custom (0, 14) "Accounts can contain at most 4 segments")
    ∧ "Accounts can contain at most 4 segments" ≠
      "accounts may contain at most 3 segments beyond their kind." := by
  refine ⟨?_, by decide⟩
  rw [show accountToks4 = accountToks "assets" (0, 6)
      [("a", (7,8)), ("b", (9,10)), ("c", (11,12)), ("d", (13,14))] from by
    unfold accountToks4 accountToks
    rfl]
  rw [accountP_eval (0, 6) _ (by simp)]
  rfl

/-- Claim C6, amended: parsing an account with `n ≥ 1` identifier segments
beyond its kind succeeds for `n ≤ 3` and fails for `n ≥ 4` with a
`Simple::custom` error whose span runs from the kind's start to the last
segment's end and whose message is
`"Accounts can contain at most 4 segments"`. -/
theorem c6_segment_cap_amended (ksp : PSpan) (segs : List (String × PSpan)) (h : segs ≠ []) :
    accountP (accountToks "assets" ksp segs) =
      if segs.length > 3 then
        .error (.custom (ksp.1, (segs.getLast h).2.2) "Accounts can contain at most 4 segments")
      else
        .ok ((.account ⟨.assets, segs.map Prod.fst⟩, (ksp.1, (segs.getLast h).2.2)), []) :=
  accountP_eval ksp segs h

/-- Claim C6, witness: the amended theorem applied to a three-segment
account, which parses successfully. -/
theorem c6_segment_cap_witness :
    accountP (accountToks "assets" (0, 6) [("a", (7,8)), ("b", (9,10)), ("c", (11,12))]) =
      .ok ((.account ⟨.assets, ["a", "b", "c"]⟩, (0, 12)), []) := by
  rw [c6_segment_cap_amended (0, 6) [("a", (7,8)), ("b", (9,10)), ("c", (11,12))] (by simp)]
  rfl

/-- Claim C7 (code bug): parsing a `transaction` statement with **zero**
movements does not produce a parse-error diagnostic — the span computation
of `movements()` calls `unwrap` on the `first()`/`last()` of the empty
movement vector, and the whole process panics. -/
theorem c7_zero_movements_crash :
    transactionOpP emptyTransactionToks =
      .error (.crash "called Option::unwrap on a None value") := by
  unfold emptyTransactionToks
  unfold transactionOpP
  rw [dateP_eval_append 2020 1 1 _ _ _ _ _ _ (by norm_num) (by norm_num) (by norm_num)]
  rw [show fromYmdOpt ((2020:ℕ):ℤ) ((1:ℕ):ℤ) ((1:ℕ):ℤ) = some ⟨2020, 1, 1⟩ from by decide]
  simp [keywordP, Keyword.from_str, stringP, movementsP, movementsLoop, movementP,
    movementKindP]

/-! ## Claim C2 -/

theorem numberRule_int (l : List Char) (h1 : l ≠ []) (h2 : ∀ c ∈ l, c.isDigit)
    (h3 : digitsVal l ≤ 2 ^ 53) :
    numberRule l = some (.number ((digitsVal l : ℕ) : ℚ), [], l.length) := by
  unfold numberRule
  rw [List.takeWhile_eq_self_iff.mpr h2]
  rw [if_neg (by simpa [List.isEmpty_iff] using h1)]
  rw [List.drop_length]
  rw [show literalVal l [] = ((digitsVal l : ℕ) : ℚ) from by
    unfold literalVal
    rw [show digitsVal [] = 0 from rfl]
    norm_num]
  rw [f64round_natCast h3]

/-- Claim C2, counterexample: lexing `"0.1"` does pass through a
floating-point intermediate (`str::parse::<f64>` followed by
`BigRational::from_float`): the produced rational is the binary64 value
`3602879701896397/36028797018963968`, not `1/10`, and summing three parsed
values yields `10808639105689191/36028797018963968`, which differs from
`3/10` (its numerator is not `3` over denominator `10`). -/
theorem c2_number_counterexample :
    numberLex "0.1" = some (.number (3602879701896397 / 36028797018963968))
    ∧ (3602879701896397 / 36028797018963968 : ℚ) +
        3602879701896397 / 36028797018963968 + 3602879701896397 / 36028797018963968 =
      10808639105689191 / 36028797018963968
    ∧ (10808639105689191 / 36028797018963968 : ℚ) ≠ 3 / 10 := by
  refine ⟨?_, by norm_num, by norm_num⟩
  have hd : "0.1".data = ['0', '.', '1'] := rfl
  have h0 : '0'.isDigit = true := by decide
  have hdot : '.'.isDigit = false := by decide
  have h1 : '1'.isDigit = true := by decide
  unfold numberLex
  rw [hd]
  unfold numberRule
  norm_num [List.takeWhile, literalVal, digitsVal, h0, hdot, h1]
  rw [show ((('0'.toNat - 48 : ℕ) : ℚ) + (('1'.toNat - 48 : ℕ) : ℚ) / 10) = 1/10 from by
    rw [show '0'.toNat = 48 from rfl, show '1'.toNat = 49 from rfl]
    norm_num]
  rw [fr_tenth]

/-- Claim C2, amended: the `number` rule parses the literal with Rust
`f64` and converts that binary64 value to an exact rational
(`BigRational::from_float`); an all-digit integer literal of value at most
`2^53` therefore still lexes to its exact value, but `"0.1"` lexes to
`3602879701896397/36028797018963968`, and the sum of three such parsed
values is `10808639105689191/36028797018963968 ≠ 3/10`. -/
theorem c2_number_amended :
    (∀ l : List Char, l ≠ [] → (∀ c ∈ l, c.isDigit) → digitsVal l ≤ 2 ^ 53 →
      numberRule l = some (.number ((digitsVal l : ℕ) : ℚ), [], l.length))
    ∧ numberLex "0.1" = some (.number (f64round (1/10)))
    ∧ f64round (1/10 : ℚ) + f64round (1/10) + f64round (1/10) =
      10808639105689191 / 36028797018963968 := by
  refine ⟨numberRule_int, ?_, by rw [fr_tenth]; norm_num⟩
  have hd : "0.1".data = ['0', '.', '1'] := rfl
  have h0 : '0'.isDigit = true := by decide
  have hdot : '.'.isDigit = false := by decide
  have h1 : '1'.isDigit = true := by decide
  unfold numberLex
  rw [hd]
  unfold numberRule
  norm_num [List.takeWhile, literalVal, digitsVal, h0, hdot, h1]
  rw [show ((('0'.toNat - 48 : ℕ) : ℚ) + (('1'.toNat - 48 : ℕ) : ℚ) / 10) = 1/10 from by
    rw [show '0'.toNat = 48 from rfl, show '1'.toNat = 49 from rfl]
    norm_num]

/-- Claim C2, witness: the amended theorem's integer clause applied to the
literal `"25"`. -/
theorem c2_number_witness :
    numberRule ['2', '5'] = some (.number ((25 : ℕ) : ℚ), [], 2) := by
  have h := c2_number_amended.1 ['2', '5'] (by simp) (by decide) (by decide)
  rw [show digitsVal ['2', '5'] = 25 from by decide] at h
  rw [show (['2', '5'] : List Char).length = 2 from rfl] at h
  exact h

/-! ## Claim C8 -/

/-- Claim C8, counterexample: on the empty ledger the balance-statement
check does **not** succeed — `explode_date_series` finds no minimum in the
empty transaction-date column and the check returns the anyhow error
`"not found min"` (which is not a trace list). -/
theorem c8_empty_counterexample :
    validate_balance_statements [] [] = .error (.other "not found min") := rfl

/-- Claim C8, amended: lexing and parsing the empty string yields an empty
operation sequence with no panic, and on the resulting empty ledger the
credits/debits check and the isolation check succeed, but the
balance-statement check fails with the error `"not found min"` raised by
`explode_date_series` on the empty date column. -/
theorem c8_empty_amended :
    parse_string "" = .ok []
    ∧ validate_credits_and_debits_balance [] = .ok ()
    ∧ validate_all_isolated_transactions_balance [] = .ok ()
    ∧ validate_balance_statements [] [] = .error (.other "not found min") :=
  ⟨rfl, rfl, rfl, rfl⟩

end Hortela
